import Mathlib

/-!
Verification of the request-construction and response-assembly pipeline of
`eolearn/io/processing_api.py` (classes `SentinelHubProcessingInput` and
`SentinelHubProcessingDEM`).

Modelling conventions:
* timestamps (`datetime`) and time differences (`timedelta`) are integer
  seconds (`ℤ`);
* Python floats are modelled by `ℚ` (exact arithmetic; binary rounding noise
  of IEEE doubles is not modelled);
* numpy arrays are a flat data list together with a shape, in row-major
  (C) order, mirroring the layout numpy itself uses;
* fallible code returns `Except PipelineError` or, where Python mutates an
  output object before possibly raising, a pair of the mutated object and an
  optional error;
* the external collaborators (WFS date discovery, download client) are
  inputs of the modelled functions, following section 6 of the spec.
-/

/-- Error taxonomy of the pipeline.  The source raises `ValueError` at each
site; the constructors name the distinct raise sites (the names the spec
uses), carrying the message where the source formats one. `nameErr` stands
for the Python `NameError`/`TypeError` raised when neither size nor
resolution is configured (or `size`/`bands_feature` is `None` where one is
required); `bandNotFound` is the `ValueError` of `list.index`;
`channelOutOfRange` and `shapeMismatch` are numpy `IndexError`/`ValueError`
on malformed responses. -/
inductive PipelineError where
  | emptyResult (msg : String)
  | unsupportedCRS (msg : String)
  | nonIntegerGrid (msg : String)
  | nameErr
  | bandNotFound
  | channelOutOfRange
  | shapeMismatch
  deriving DecidableEq

/-- Python `int(q)` on a real value: truncation toward zero. -/
def pyInt (q : ℚ) : ℤ := if 0 ≤ q then ⌊q⌋ else ⌈q⌉

/-- Python 3 `round(q)` (and the rounding of `numpy.round` at integer
midpoints): round half to even. -/
def pyRound (q : ℚ) : ℤ :=
  let f : ℤ := ⌊q⌋
  let r : ℚ := q - (f : ℚ)
  if r < 1 / 2 then f
  else if 1 / 2 < r then f + 1
  else if f % 2 = 0 then f else f + 1

/-- Element operation of `numpy.round(xs, 4)`: round to four decimal places
(half to even). -/
def round4 (q : ℚ) : ℚ := ((pyRound (q * 10000) : ℚ)) / 10000

/-- Cast of `numpy.astype(numpy.int16)` on a float value: truncation toward
zero followed by a wrap into the signed 16-bit range. -/
def toInt16 (q : ℚ) : ℤ := ((pyInt q + 32768) % 65536) - 32768

/-- Left pad of a numeral with zeros, used by the ISO-8601 formatting. -/
def padNum (width : Nat) (n : ℤ) : String :=
  let s := toString n
  if s.length < width then String.mk (List.replicate (width - s.length) (Char.ofNat 48)) ++ s
  else s

/-- Conversion of a day count since 1970-01-01 into a civil (year, month,
day) triple, the standard Gregorian calendar algorithm that the Python
`datetime` library implements. -/
def civilFromDays (z0 : ℤ) : ℤ × ℤ × ℤ :=
  let z := z0 + 719468
  let era := z.fdiv 146097
  let doe := z - era * 146097
  let yoe := (doe - doe.fdiv 1460 + doe.fdiv 36524 - doe.fdiv 146096).fdiv 365
  let y := yoe + era * 400
  let doy := doe - (365 * yoe + yoe.fdiv 4 - yoe.fdiv 100)
  let mp := (5 * doy + 2).fdiv 153
  let d := doy - (153 * mp + 2).fdiv 5 + 1
  let m := mp + (if mp < 10 then 3 else -9)
  (y + (if m ≤ 2 then 1 else 0), m, d)

/-- Python `datetime.isoformat()` of a naive UTC datetime held as integer
seconds since the epoch (second resolution, as the WFS dates have no
sub-second part): `YYYY-MM-DDTHH:MM:SS`. -/
def isoformatUTC (t : ℤ) : String :=
  let days := t.fdiv 86400
  let sod := t.emod 86400
  let ymd := civilFromDays days
  padNum 4 ymd.1 ++ "-" ++ padNum 2 ymd.2.1 ++ "-" ++ padNum 2 ymd.2.2 ++ "T" ++
    padNum 2 (sod.fdiv 3600) ++ ":" ++ padNum 2 ((sod.emod 3600).fdiv 60) ++ ":" ++
    padNum 2 (sod.emod 60)

/-- Python `str` of the `time_interval` pair as interpolated into the
empty-result error message (the quotes Python `repr` adds around the two
strings are left out of the model). -/
def fmtInterval (ti : String × String) : String :=
  "(" ++ (ti.1 ++ (", " ++ (ti.2 ++ ")")))

/-- Python `sorted` on datetimes: for values in a linear order every
(stable) sort returns the same list, modelled by insertion sort. -/
def pySorted (l : List ℤ) : List ℤ := List.insertionSort (· ≤ ·) l

/-- Date deduplication sweep of `SentinelHubProcessingInput.get_dates`:
`dates = [dates[0]] + [d2 for d1, d2 in zip(dates[:-1], dates[1:]) if
d2 - d1 > self.time_difference]`.  The `[]` case is unreachable in the
source (guarded by the empty check). -/
def filter_dates (timeDiff : ℤ) (dates : List ℤ) : List ℤ :=
  match dates with
  | [] => []
  | d0 :: rest =>
      d0 :: (((d0 :: rest).dropLast.zip ((d0 :: rest).drop 1)).filterMap
        (fun p => if timeDiff < p.2 - p.1 then some p.2 else none))

/-- `SentinelHubProcessingInput.get_dates`: the WFS collaborator result is
the `wfsDates` argument; raises on an empty result, otherwise sorts and
sweeps. -/
def get_dates (timeDiff : ℤ) (ti : String × String) (wfsDates : List ℤ) :
    Except PipelineError (List ℤ) :=
  if wfsDates.length = 0 then
    .error (.emptyResult ("No available images for requested time range: " ++ fmtInterval ti))
  else
    .ok (filter_dates timeDiff (pySorted wfsDates))

/-- Helper of `adjacentSweep`: walk the tail, always advancing the
predecessor to the element just visited (kept or not). -/
def adjacentSweepAux (timeDiff : ℤ) (prev : ℤ) : List ℤ → List ℤ
  | [] => []
  | d :: ds =>
      if timeDiff < d - prev then d :: adjacentSweepAux timeDiff d ds
      else adjacentSweepAux timeDiff d ds

/-- The sweep restated recursively: keep the first date and every date whose
gap from its immediate predecessor in the sorted input (kept or not)
strictly exceeds the minimum time difference.  Proved equal to
`filter_dates` below. -/
def adjacentSweep (timeDiff : ℤ) : List ℤ → List ℤ
  | [] => []
  | d :: rest => d :: adjacentSweepAux timeDiff d rest

/-- Helper of `greedyKeep`: the last KEPT date is the reference point. -/
def greedyKeepAux (timeDiff : ℤ) (lastKept : ℤ) : List ℤ → List ℤ
  | [] => []
  | d :: ds =>
      if timeDiff < d - lastKept then d :: greedyKeepAux timeDiff d ds
      else greedyKeepAux timeDiff lastKept ds

/-- The sweep as claim C1 words it: keep the earliest date and each
subsequent date whose gap from the most recently KEPT date strictly
exceeds the minimum time difference. -/
def greedyKeep (timeDiff : ℤ) : List ℤ → List ℤ
  | [] => []
  | d :: rest => d :: greedyKeepAux timeDiff d rest

/-- Coordinate reference system of a bounding box, as the pipeline observes
it through the external `sentinelhub` CRS object: the `is_utm` test that
`size_from_resolution` performs (the spec calls a CRS passing it a
projected, distance-based system) and the `opengis_string` used in request
bounds. -/
structure CRS where
  is_utm : Bool
  opengis : String
  deriving DecidableEq

/-- Bounding box: CRS plus the four coordinates in the order Python
`list(bbox)` yields them: `[x_min, y_min, x_max, y_max]`. -/
structure BBox where
  crs : CRS
  x_min : ℚ
  y_min : ℚ
  x_max : ℚ
  y_max : ℚ
  deriving DecidableEq

/-- The coordinate list `list(bbox)`. -/
def BBox.coords (b : BBox) : List ℚ := [b.x_min, b.y_min, b.x_max, b.y_max]

/-- `SentinelHubProcessingInput.size_from_resolution`: requires a UTM CRS,
divides the two extents by the resolution, requires both quotients to be
exact integers, and returns them as integers.  A zero resolution is folded
into the non-integer branch: in Python the float divisions produce
`inf`/`nan`, whose `is_integer()` is false, so the same error is raised. -/
def size_from_resolution (bbox : BBox) (resolution : ℚ) :
    Except PipelineError (ℤ × ℤ) :=
  if bbox.crs.is_utm = false then
    .error (.unsupportedCRS "Only UTM crs is supported.")
  else
    let size_x : ℚ := (bbox.x_max - bbox.x_min) / resolution
    let size_y : ℚ := (bbox.y_max - bbox.y_min) / resolution
    if resolution = 0 then
      .error (.nonIntegerGrid "BBox width and height in CRS units are not multiples of resolution.")
    else if size_x.isInt ∧ size_y.isInt then
      .ok (size_x.num, size_y.num)
    else
      .error (.nonIntegerGrid "BBox width and height in CRS units are not multiples of resolution.")

/-- Time filter of one input-data entry: the `dataFilter.timeRange` mapping
plus the `maxCloudCoverage` key (absent in the template, set by the request
builder). -/
structure DataFilter where
  timeRange_from : String
  timeRange_to : String
  maxCloudCoverage : Option ℤ
  deriving DecidableEq

/-- One entry of `request[input][data]`: the data-source type and its
filter. -/
structure DataEntry where
  dataType : String
  dataFilter : DataFilter
  deriving DecidableEq

/-- Spatial bounds section of a request, `shr.bounds`. -/
structure BoundsSection where
  crs : String
  bbox : List ℚ
  deriving DecidableEq

/-- Input section of a request. -/
structure InputSection where
  bounds : BoundsSection
  data : List DataEntry
  deriving DecidableEq

/-- Output section of a request, `shr.output` (the response descriptors are
a fixed pair in the source and carry no information the claims need). -/
structure OutputSection where
  width : ℤ
  height : ℤ
  deriving DecidableEq

/-- A processing-API request payload, `shr.body`: conceptual JSON
`input / output / evalscript` wire shape of section 6 of the spec. -/
structure RequestBody where
  input : InputSection
  output : OutputSection
  evalscript : String
  deriving DecidableEq

/-- `SentinelHubProcessingInput.request_from_date`: Python deep-copies the
payload and mutates every input-data entry; the model builds the new value
directly (deep copy makes the two observationally identical, and value
semantics in Lean gives the isolation the spec demands for free). -/
def request_from_date (request : RequestBody) (date : ℤ) (maxcc : ℚ)
    (time_difference : ℤ) : RequestBody :=
  let time_from := isoformatUTC (date - time_difference) ++ "Z"
  let time_to := isoformatUTC (date + time_difference) ++ "Z"
  { request with
    input := { request.input with
      data := request.input.data.map (fun entry =>
        { entry with dataFilter :=
          { timeRange_from := time_from
            timeRange_to := time_to
            maxCloudCoverage := some (pyInt (maxcc * 100)) } }) } }

/-- A one-entry template used by concrete checks. -/
def sampleTemplate : RequestBody :=
  { input :=
      { bounds := { crs := "EPSG:32633", bbox := [0, 0, 1, 1] }
        data := [{ dataType := "S2L1C",
                   dataFilter := { timeRange_from := "", timeRange_to := "",
                                   maxCloudCoverage := none } }] }
    output := { width := 10, height := 10 }
    evalscript := "" }

/-- Python `list.index` as a total function: index of the first occurrence,
`none` when absent (where Python raises `ValueError`). -/
def listIndex (x : String) : List String → Option Nat
  | [] => none
  | y :: ys => if y = x then some 0 else (listIndex x ys).map (fun i => i + 1)

/-- Fuel-driven helper of `chunksOf` (fuel keeps the recursion structural so
that concrete witnesses evaluate inside the kernel). -/
def chunksOfAux (n : Nat) : Nat → List α → List (List α)
  | _, [] => []
  | 0, _ :: _ => []
  | fuel + 1, x :: xs => (x :: xs).take n :: chunksOfAux n fuel ((x :: xs).drop n)

/-- Split a flat list into consecutive chunks of length `n` (the row-major
blocks of the last axis of an ndarray). -/
def chunksOf (n : Nat) (l : List α) : List (List α) :=
  if n = 0 then [] else chunksOfAux n l.length l

/-- Collect a list of options, failing on the first `none` (the point where
numpy would raise while iterating the responses). -/
def allSome : List (Option α) → Option (List α)
  | [] => some []
  | none :: _ => none
  | some a :: rest => (allSome rest).map (fun l => a :: l)

/-- A numpy ndarray: shape plus row-major flat data. -/
structure NDArray (α : Type) where
  shape : List Nat
  data : List α
  deriving DecidableEq

/-- Length of the last axis (numpy size of axis -1; 1 for a 0-d array). -/
def NDArray.lastDim (a : NDArray α) : Nat := a.shape.getLastD 1

/-- Elementwise map, the model of dtype casts and scalar arithmetic
broadcast over an array; preserves the shape as numpy does. -/
def NDArray.map (f : α → β) (a : NDArray α) : NDArray β := ⟨a.shape, a.data.map f⟩

/-- `numpy.asarray` on a list of equal-shaped arrays: stack along a new
leading axis. -/
def asarrayStack (l : List (NDArray α)) : NDArray α :=
  ⟨l.length :: (match l with | [] => [] | a :: _ => a.shape),
   (l.map NDArray.data).flatten⟩

/-- `ndarray.reshape`: succeeds exactly when all requested extents are
nonnegative and their product matches the element count (numpy raises
otherwise; the -1 inference feature is never used by the source). -/
def reshapeZ (a : NDArray α) (s : List ℤ) : Option (NDArray α) :=
  if (∀ z ∈ s, 0 ≤ z) ∧ (s.map Int.toNat).prod = a.data.length then
    some ⟨s.map Int.toNat, a.data⟩
  else none

/-- `arr[..., :k]`: keep the first `k` entries of every last-axis block
(numpy slices clip, they never raise). -/
def sliceLast (a : NDArray α) (k : Nat) : NDArray α :=
  ⟨a.shape.dropLast ++ [min k a.lastDim],
   ((chunksOf a.lastDim a.data).map (List.take k)).flatten⟩

/-- `arr[..., idx]`: select one last-axis channel; out of range is the numpy
`IndexError`. -/
def indexLast (a : NDArray α) (idx : Nat) (default : α) : Option (NDArray α) :=
  if idx < a.lastDim then
    some ⟨a.shape.dropLast, (chunksOf a.lastDim a.data).map (fun c => c.getD idx default)⟩
  else none

/-- `numpy.atleast_3d`. -/
def atleast3d (a : NDArray α) : NDArray α :=
  match a.shape with
  | [] => ⟨[1, 1, 1], a.data⟩
  | [n] => ⟨[1, n, 1], a.data⟩
  | [h, w] => ⟨[h, w, 1], a.data⟩
  | _ => a

/-- `arr[..., numpy.newaxis]`: append a trailing axis of extent 1. -/
def expandDims (a : NDArray α) : NDArray α := ⟨a.shape ++ [1], a.data⟩

/-- A raster layer held by the output dataset: float data, boolean masks,
or the 16-bit integer DEM layer. -/
inductive Layer where
  | rat (a : NDArray ℚ)
  | bool (a : NDArray Bool)
  | int16 (a : NDArray ℤ)
  deriving DecidableEq

/-- A value of the free-form `meta_info` mapping. -/
inductive MetaVal where
  | str (v : String)
  | int (v : ℤ)
  | rat (v : ℚ)
  | optRat (v : Option ℚ)
  | interval (v : String × String)
  | timedelta (v : ℤ)
  deriving DecidableEq

/-- Modelled from the spec: the output dataset collaborator (`EOPatch` of
`eolearn.core`, which is outside the covered source): settable ordered
timestamp list and bounding box, item assignment keyed by (layer kind,
name), and a free-form metadata mapping (section 6 of the spec).  The two
mappings are association lists where the most recent assignment is found
first. -/
structure EOPatch where
  timestamp : List ℤ
  bbox : Option BBox
  features : List ((String × String) × Layer)
  meta_info : List (String × MetaVal)
  deriving DecidableEq

/-- The fresh dataset `EOPatch()` creates. -/
def EOPatch.empty : EOPatch := ⟨[], none, [], []⟩

/-- Item assignment `eopatch[(kind, name)] = layer`. -/
def setFeature (p : EOPatch) (key : String × String) (v : Layer) : EOPatch :=
  { p with features := (key, v) :: p.features }

/-- Item lookup on the features mapping. -/
def getFeature (p : EOPatch) (key : String × String) : Option Layer :=
  (p.features.find? (fun kv => kv.1 = key)).map (fun kv => kv.2)

/-- Assignment into the `meta_info` mapping. -/
def setMeta (p : EOPatch) (k : String) (v : MetaVal) : EOPatch :=
  { p with meta_info := (k, v) :: p.meta_info }

/-- Lookup in the `meta_info` mapping. -/
def getMeta (p : EOPatch) (k : String) : Option MetaVal :=
  (p.meta_info.find? (fun kv => kv.1 = k)).map (fun kv => kv.2)

/-- One decoded multi-part response of the download collaborator: the
`default.tif` raster and the optional decoded `userdata.json` object whose
optional field is `norm_factor` (an absent or empty JSON object is the
outer `none`, matching Python falsiness). -/
structure Response where
  default_tif : NDArray ℚ
  userdata_json : Option (Option ℚ)
  deriving DecidableEq

/-- Norm-factor extraction of `execute`:
`meta.get('norm_factor', 0) if meta else 0`. -/
def normFactor (userdata : Option (Option ℚ)) : ℚ :=
  match userdata with
  | none => 0
  | some m => m.getD 0

/-- Constructor state of `SentinelHubProcessingInput.__init__`.  The
`data_source` collaborator is represented by the two values the pipeline
reads from it (`bands()` and `api_identifier()`); `cache_folder` and
`max_threads` only parameterize the download collaborator and are omitted.
`additional_data` is the already-parsed list of (feature-type, source-name,
new-name) triples that `FeatureParser(additional_data, new_names=True)`
yields (modelled from the spec: `FeatureParser` lives in `eolearn.core`,
outside the covered source; section 3 of the spec describes the triples). -/
structure Config where
  data_source_bands : List String
  api_identifier : String
  size : Option (ℤ × ℤ)
  resolution : Option ℚ
  bands_feature : Option (String × String)
  bands_arg : Option (List String)
  additional_data : List (String × String × String)
  maxcc : ℚ
  time_difference_arg : Option ℤ
  deriving DecidableEq

/-- `self.time_difference`: one second when the argument is `None`. -/
def Config.time_difference (c : Config) : ℤ := c.time_difference_arg.getD 1

/-- `self.bands = bands or data_source.bands() if bands_feature else []`
(`None` and the empty list are both falsy). -/
def Config.bands (c : Config) : List String :=
  if c.bands_feature.isSome then
    match c.bands_arg with
    | none => c.data_source_bands
    | some [] => c.data_source_bands
    | some l => l
  else []

/-- `self.all_bands`: the band selection followed by the source names of
the additional-data entries. -/
def Config.all_bands (c : Config) : List String :=
  c.bands ++ c.additional_data.map (fun t => t.2.1)

/-- Opening brace character, written by code point to keep it out of
string and character literals. -/
def lbrace : Char := Char.ofNat 123

/-- Closing brace character. -/
def rbrace : Char := Char.ofNat 125

/-- Python `str.format` with keyword substitutions, specialized to what the
evalscript template uses: `\x7b\x7b`/`\x7d\x7d` are escaped braces and
`\x7bkey\x7d` is replaced by `subst key`.  Fuel keeps the recursion
structural; the template length bounds the steps needed. -/
def pyFormatAux (subst : String → String) : Nat → List Char → List Char
  | 0, _ => []
  | _ + 1, [] => []
  | fuel + 1, c :: cs =>
    if c = lbrace then
      match cs with
      | [] => [c]
      | c2 :: cs2 =>
        if c2 = lbrace then lbrace :: pyFormatAux subst fuel cs2
        else
          let key := (c2 :: cs2).takeWhile (fun ch => !(ch == rbrace))
          let rest := ((c2 :: cs2).dropWhile (fun ch => !(ch == rbrace))).drop 1
          (subst (String.mk key)).data ++ pyFormatAux subst fuel rest
    else if c = rbrace then
      match cs with
      | [] => [c]
      | c2 :: cs2 =>
        if c2 = rbrace then rbrace :: pyFormatAux subst fuel cs2
        else rbrace :: pyFormatAux subst fuel (c2 :: cs2)
    else c :: pyFormatAux subst fuel cs

/-- The evalscript template of
`SentinelHubProcessingInput.generate_evalscript`, transcribed byte for byte
from the source (braces written by code point). -/
def evalscriptTemplate : String :=
  "\n            function setup() \x7b\x7b\n                return \x7b\x7b\n                    input: [\x7b\x7b\n                        bands: \x7bbands\x7d,\n                        units: \"DN\"\n                    \x7d\x7d],\n                    output: \x7b\x7b\n                        id:\"default\",\n                        bands: \x7bnum_bands\x7d,\n                        sampleType: SampleType.UINT16\n                    \x7d\x7d\n                \x7d\x7d\n            \x7d\x7d\n\n            function updateOutputMetadata(scenes, inputMetadata, outputMetadata) \x7b\x7b\n                outputMetadata.userData = \x7b\x7b \"norm_factor\":  inputMetadata.normalizationFactor \x7d\x7d\n            \x7d\x7d\n\n            function evaluatePixel(sample) \x7b\x7b\n                return \x7bsamples\x7d\n            \x7d\x7d\n        "

/-- `json.dumps` of a band-name string: quote wrapping (the JSON character
escapes never fire on band identifiers and are left out of the model). -/
def jsonString (s : String) : String := "\"" ++ (s ++ "\"")

/-- `json.dumps` of the band-name list (default separator is a comma and a
space). -/
def jsonDumpsList (l : List String) : String :=
  "[" ++ (String.intercalate ", " (l.map jsonString) ++ "]")

/-- The `samples` value of `generate_evalscript`:
`', '.join(['sample.\x7b\x7d'.format(band) for band in self.all_bands])`
wrapped in brackets. -/
def samplesStr (allBands : List String) : String :=
  "[" ++ (String.intercalate ", " (allBands.map (fun band => "sample." ++ band)) ++ "]")

/-- The keyword substitutions of the single `format` call of
`generate_evalscript`. -/
def evalscriptSubst (allBands : List String) : String → String := fun key =>
  if key = "bands" then jsonDumpsList allBands
  else if key = "num_bands" then toString allBands.length
  else if key = "samples" then samplesStr allBands
  else ""

/-- `SentinelHubProcessingInput.generate_evalscript` as a function of
`self.all_bands`. -/
def generate_evalscript (allBands : List String) : String :=
  String.mk (pyFormatAux (evalscriptSubst allBands) 2000 evalscriptTemplate.data)

/-- The fixed evalscript of `SentinelHubProcessingDEM.generate_evalscript`,
transcribed byte for byte (braces written by code point). -/
def dem_evalscript : String :=
  "\n            function setup() \x7b\n                return \x7b\n                    input: [\"DEM\"],\n                    output:\x7b\n                        id: \"default\",\n                        bands: 1,\n                        sampleType: SampleType.UINT16\n                    \x7d\n                \x7d\n            \x7d\n\n            function evaluatePixel(sample) \x7b\n                return [sample.DEM]\n            \x7d\n        "

/-- The request template `shr.body(...)` builds inside `execute`: bounds
from the bbox, one data entry for the data source, output extents, and the
generated evalscript (the `shr` helpers live in the external `sentinelhub`
package; the wire shape follows section 6 of the spec). -/
def buildRequestBody (c : Config) (bbox : BBox) (size_x size_y : ℤ) : RequestBody :=
  { input :=
      { bounds := { crs := bbox.crs.opengis, bbox := bbox.coords }
        data := [{ dataType := c.api_identifier,
                   dataFilter := { timeRange_from := "", timeRange_to := "",
                                   maxCloudCoverage := none } }] }
    output := { width := size_x, height := size_y }
    evalscript := generate_evalscript c.all_bands }

/-- Size resolution at the top of `execute`: an explicit size wins
verbatim; otherwise the resolution path runs `size_from_resolution`; with
neither configured the later use of the unbound locals raises
(`NameError`). -/
def resolve_size (size : Option (ℤ × ℤ)) (resolution : Option ℚ) (bbox : BBox) :
    Except PipelineError (ℤ × ℤ) :=
  match size with
  | some s => .ok s
  | none =>
    match resolution with
    | some r => size_from_resolution bbox r
    | none => .error .nameErr

/-- The per-date request list `execute` hands to the download
collaborator. -/
def executeRequests (c : Config) (bbox : BBox) (size_x size_y : ℤ)
    (dates : List ℤ) : List RequestBody :=
  dates.map (fun d => request_from_date (buildRequestBody c bbox size_x size_y) d
    c.maxcc c.time_difference)

/-- The additional-data loop of `execute`: for each (type, source,
destination) triple, find the source channel in `all_bands`, extract it
from every response, stack, reshape to (T, H, W, 1), cast to boolean, and
assign; the dataset mutated so far is returned alongside any error, since
Python raises mid-loop with the earlier assignments already applied. -/
def assembleAdditional (c : Config) (entries : List (String × String × String))
    (images : List (NDArray ℚ × ℚ)) (t size_y size_x : ℤ) (p : EOPatch) :
    EOPatch × Option PipelineError :=
  match entries with
  | [] => (p, none)
  | (f_type, f_src, f_dst) :: rest =>
    match listIndex f_src c.all_bands with
    | none => (p, some .bandNotFound)
    | some idx =>
      match allSome (images.map (fun iv => indexLast (atleast3d iv.1) idx 0)) with
      | none => (p, some .channelOutOfRange)
      | some arrs =>
        match reshapeZ (asarrayStack arrs) [t, size_y, size_x, 1] with
        | none => (p, some .shapeMismatch)
        | some arr =>
            assembleAdditional c rest images t size_y size_x
              (setFeature p (f_type, f_dst) (.bool (arr.map (fun v => !(v == 0)))))

/-- The band-extraction tail of `execute`: when the band selection is
non-empty, slice the first `len(bands)` channels of every response, scale
by the norm factor, stack, reshape to (T, H, W, band count), round to four
decimals, and assign to `bands_feature`. -/
def assembleBands (c : Config) (images : List (NDArray ℚ × ℚ))
    (t size_y size_x : ℤ) (p : EOPatch) : EOPatch × Option PipelineError :=
  if c.bands.isEmpty then (p, none)
  else
    let img_bands := c.bands.length
    let img_arrays := images.map (fun iv => (sliceLast iv.1 img_bands).map (fun v => v * iv.2))
    match reshapeZ (asarrayStack img_arrays) [t, size_y, size_x, (img_bands : ℤ)] with
    | none => (p, some .shapeMismatch)
    | some arr =>
      match c.bands_feature with
      | none => (p, some .nameErr)
      | some bf => (setFeature p bf (.rat (arr.map round4)), none)

/-- `SentinelHubProcessingInput.execute`.  The WFS collaborator result is
`wfsDates`; the download collaborator is `client` (order preserving, one
response per request, per section 5 of the spec).  Returns the dataset
together with the error raised, if any; the dataset reflects exactly the
mutations performed before the raise. -/
def execute (c : Config) (eopatchArg : Option EOPatch) (bbox : BBox)
    (ti : String × String) (wfsDates : List ℤ)
    (client : List RequestBody → List Response) : EOPatch × Option PipelineError :=
  let eopatch0 := eopatchArg.getD EOPatch.empty
  match resolve_size c.size c.resolution bbox with
  | .error e => (eopatch0, some e)
  | .ok (size_x, size_y) =>
    match get_dates c.time_difference ti wfsDates with
    | .error e => (eopatch0, some e)
    | .ok dates =>
      let responses := client (executeRequests c bbox size_x size_y dates)
      let images := responses.map (fun r => (r.default_tif, normFactor r.userdata_json))
      let p1 := { eopatch0 with timestamp := dates, bbox := some bbox }
      match assembleAdditional c c.additional_data images (dates.length : ℤ) size_y size_x p1 with
      | (p2, some e) => (p2, some e)
      | (p2, none) =>
        match assembleBands c images (dates.length : ℤ) size_y size_x p2 with
        | (p3, some e) => (p3, some e)
        | (p3, none) =>
          let p4 := setMeta (setMeta (setMeta (setMeta (setMeta (setMeta (setMeta p3
            "service_type" (.str "processing"))
            "size_x" (.int size_x))
            "size_y" (.int size_y))
            "resolution" (.optRat c.resolution))
            "maxcc" (.rat c.maxcc))
            "time_interval" (.interval ti))
            "time_difference" (.timedelta c.time_difference)
          (p4, none)

/-- Constructor state of `SentinelHubProcessingDEM` (the fields its
`execute` reads). -/
structure DEMConfig where
  size : Option (ℤ × ℤ)
  bands_feature : Option (String × String)
  deriving DecidableEq

/-- The single request `SentinelHubProcessingDEM.execute` builds. -/
def demRequestBody (bbox : BBox) (size_x size_y : ℤ) : RequestBody :=
  { input :=
      { bounds := { crs := bbox.crs.opengis, bbox := bbox.coords }
        data := [{ dataType := "DEM",
                   dataFilter := { timeRange_from := "", timeRange_to := "",
                                   maxCloudCoverage := none } }] }
    output := { width := size_x, height := size_y }
    evalscript := dem_evalscript }

/-- `SentinelHubProcessingDEM.execute`: unpacks `self.size` (raising when
it is `None`), downloads the single request, sets the bbox and assigns the
16-bit integer layer; no timestamps and no `meta_info` entries are
written. -/
def executeDEM (c : DEMConfig) (eopatchArg : Option EOPatch) (bbox : BBox)
    (client : RequestBody → Response) : EOPatch × Option PipelineError :=
  let p0 := eopatchArg.getD EOPatch.empty
  match c.size with
  | none => (p0, some .nameErr)
  | some (size_x, size_y) =>
    let image := client (demRequestBody bbox size_x size_y)
    let tif := image.default_tif
    let p1 := { p0 with bbox := some bbox }
    match c.bands_feature with
    | none => (p1, some .nameErr)
    | some bf => (setFeature p1 bf (.int16 ((expandDims tif).map toInt16)), none)

/-- A concrete UTM bounding box used by the concrete checks. -/
def wBBox : BBox :=
  { crs := { is_utm := true, opengis := "EPSG:32633" },
    x_min := 0, y_min := 0, x_max := 1, y_max := 1 }

/-- A concrete geographic (non-UTM) bounding box. -/
def wBadBBox : BBox :=
  { crs := { is_utm := false, opengis := "EPSG:4326" },
    x_min := 0, y_min := 0, x_max := 1, y_max := 1 }

/-- A concrete response: a 1 by 1 image with two channels and a norm
factor of one half. -/
def wResp : Response :=
  { default_tif := { shape := [1, 1, 2], data := [3, 5] },
    userdata_json := some (some (1 / 2)) }

/-- A download collaborator returning one response for any batch. -/
def wClient : List RequestBody → List Response := fun _ => [wResp]

/-- A concrete configuration: one spectral band, one auxiliary mask, an
explicit 1 by 1 size. -/
def wCfg : Config :=
  { data_source_bands := ["B1"], api_identifier := "S2L1C",
    size := some (1, 1), resolution := none,
    bands_feature := some ("DATA", "BANDS"), bands_arg := none,
    additional_data := [("MASK", "M", "M2")], maxcc := 1,
    time_difference_arg := none }

/-- The same configuration with a resolution configured alongside the
explicit size. -/
def wCfgBoth : Config := { wCfg with resolution := some 7 }

/-- A concrete DEM configuration. -/
def wDEMCfg : DEMConfig := { size := some (1, 1), bands_feature := some ("DATA", "DEM") }

/-- A download collaborator for the single DEM request. -/
def wDEMClient : RequestBody → Response := fun _ => wResp

/-- The literal text of the formatted evalscript before the `bands`
value. -/
def evalscriptChunk0 : String :=
  "\n            function setup() \x7b\n                return \x7b\n                    input: [\x7b\n                        bands: "

/-- The literal text between the `bands` value and the declared output band
count (the text `bands: ` of the output section ends this chunk). -/
def evalscriptChunk1 : String :=
  ",\n                        units: \"DN\"\n                    \x7d],\n                    output: \x7b\n                        id:\"default\",\n                        bands: "

/-- The literal text between the declared output band count and the
per-pixel return expression (holding the sample type, the norm-factor
side channel and the `evaluatePixel` head). -/
def evalscriptChunk2 : String :=
  ",\n                        sampleType: SampleType.UINT16\n                    \x7d\n                \x7d\n            \x7d\n\n            function updateOutputMetadata(scenes, inputMetadata, outputMetadata) \x7b\n                outputMetadata.userData = \x7b \"norm_factor\":  inputMetadata.normalizationFactor \x7d\n            \x7d\n\n            function evaluatePixel(sample) \x7b\n                return "

/-- The literal text closing the script. -/
def evalscriptChunk3 : String := "\n            \x7d\n        "

set_option maxRecDepth 20000

theorem adjacentSweepAux_eq_zip (timeDiff : ℤ) :
    ∀ (l : List ℤ) (prev : ℤ),
      adjacentSweepAux timeDiff prev l =
        ((prev :: l).dropLast.zip ((prev :: l).drop 1)).filterMap
          (fun p => if timeDiff < p.2 - p.1 then some p.2 else none) := by
  intro l
  induction l with
  | nil => intro prev; rfl
  | cons d tl ih =>
      intro prev
      have hdl : (prev :: d :: tl).dropLast = prev :: (d :: tl).dropLast := by
        simp [List.dropLast]
      rw [adjacentSweepAux, hdl]
      simp only [List.drop_one, List.tail_cons, List.zip_cons_cons, List.filterMap_cons]
      by_cases h : timeDiff < d - prev
      · simp only [if_pos h]
        rw [ih d]
        simp [List.drop_one]
      · simp only [if_neg h]
        rw [ih d]
        simp [List.drop_one]

theorem filter_dates_eq_adjacentSweep (timeDiff : ℤ) (dates : List ℤ) :
    filter_dates timeDiff dates = adjacentSweep timeDiff dates := by
  cases dates with
  | nil => rfl
  | cons d rest =>
      rw [filter_dates, adjacentSweep, adjacentSweepAux_eq_zip]

theorem adjacentSweepAux_chain (timeDiff : ℤ) :
    ∀ (ds : List ℤ) (prev x : ℤ), x ≤ prev → List.Sorted (· ≤ ·) (prev :: ds) →
      List.Chain' (fun a b => timeDiff < b - a) (x :: adjacentSweepAux timeDiff prev ds) := by
  intro ds
  induction ds with
  | nil => intro prev x _ _; exact List.chain'_singleton x
  | cons d tl ih =>
      intro prev x hxp hs
      rcases List.sorted_cons.mp hs with ⟨hall, hstl⟩
      have hpd : prev ≤ d := hall d (by simp)
      rw [adjacentSweepAux]
      by_cases h : timeDiff < d - prev
      · simp only [if_pos h]
        refine List.chain'_cons.mpr ⟨?_, ?_⟩
        · have : d - prev ≤ d - x := by linarith
          linarith
        · exact ih d d le_rfl hstl
      · simp only [if_neg h]
        exact ih d x (le_trans hxp hpd) hstl

/-- Claim C1, as stated, is false: `get_dates` compares each date with its
immediate predecessor in the SORTED list, not with the most recently kept
date.  On WFS dates `[1, 0, 2]` (sorted `[0, 1, 2]`) and a minimum time
difference of 1 second the code returns `[0]`, while the greedy
keep-anchored sweep of the claim returns `[0, 2]`. -/
theorem c1_greedy_counterexample :
    get_dates 1 ("2020-01-01", "2020-01-02") [1, 0, 2] = .ok [0] ∧
    greedyKeep 1 (pySorted [1, 0, 2]) = [0, 2] ∧
    get_dates 1 ("2020-01-01", "2020-01-02") [1, 0, 2] ≠
      .ok (greedyKeep 1 (pySorted [1, 0, 2])) := by
  refine ⟨rfl, by decide, ?_⟩
  intro h
  have h2 : ([0] : List ℤ) = [0, 2] := by
    have h1 : get_dates 1 ("2020-01-01", "2020-01-02") [1, 0, 2] = .ok [0] := rfl
    rw [h1] at h
    have h3 : greedyKeep 1 (pySorted [1, 0, 2]) = [0, 2] := by decide
    rw [h3] at h
    exact Except.ok.inj h
  exact absurd h2 (by decide)

/-- Claim C1 (amended): for every call in which the date-discovery
collaborator returns a non-empty list of dates and every minimum time
difference, the returned list equals the result of sorting the dates
ascending and performing a single left-to-right sweep that keeps the
earliest date and each subsequent date whose gap from its immediate
predecessor in the sorted list (kept or not) strictly exceeds the minimum
time difference. -/
theorem c1_amended_adjacent_sweep (timeDiff : ℤ) (ti : String × String)
    (wfsDates : List ℤ) (h : wfsDates ≠ []) :
    get_dates timeDiff ti wfsDates = .ok (adjacentSweep timeDiff (pySorted wfsDates)) := by
  have hlen : wfsDates.length ≠ 0 := by
    intro h0; exact h (List.length_eq_zero.mp h0)
  rw [get_dates, if_neg hlen, filter_dates_eq_adjacentSweep]

theorem c1_amended_adjacent_sweep_witness :
    ([1, 0, 2] : List ℤ) ≠ [] ∧
    get_dates 1 ("2020-01-01", "2020-01-02") [1, 0, 2] =
      .ok (adjacentSweep 1 (pySorted [1, 0, 2])) :=
  ⟨by decide, c1_amended_adjacent_sweep 1 ("2020-01-01", "2020-01-02") [1, 0, 2] (by decide)⟩

/-- Claim C6: for every sorted non-empty date list and every minimum time
difference, the deduplicated list starts with (hence contains) the first
date, and every adjacent pair of the output is separated by strictly more
than the minimum time difference; in particular a gap exactly equal to it
never appears between adjacent output dates. -/
theorem c6_dedup_invariants (timeDiff : ℤ) (s : List ℤ)
    (hne : s ≠ []) (hs : List.Sorted (· ≤ ·) s) :
    (filter_dates timeDiff s).head? = s.head? ∧
    List.Chain' (fun a b => timeDiff < b - a) (filter_dates timeDiff s) := by
  cases s with
  | nil => exact absurd rfl hne
  | cons d rest =>
      rw [filter_dates_eq_adjacentSweep]
      constructor
      · rfl
      · exact adjacentSweepAux_chain timeDiff rest d d le_rfl hs

theorem c6_dedup_invariants_witness :
    (([0, 1, 3, 10] : List ℤ) ≠ [] ∧ List.Sorted (· ≤ ·) ([0, 1, 3, 10] : List ℤ)) ∧
    ((filter_dates 2 [0, 1, 3, 10]).head? = ([0, 1, 3, 10] : List ℤ).head? ∧
      List.Chain' (fun a b => (2:ℤ) < b - a) (filter_dates 2 [0, 1, 3, 10])) :=
  ⟨⟨by decide, by decide⟩, c6_dedup_invariants 2 [0, 1, 3, 10] (by decide) (by decide)⟩

/-- Claim C4: for every bounding box and non-zero resolution (the zero case
is a float-infinity artifact, see `size_from_resolution`), the grid
resolver fails with the unsupported-CRS error exactly when the CRS does not
pass the projected-system test; otherwise it forms the quotients
width = (x_max - x_min) / resolution and height = (y_max - y_min) /
resolution, fails with the non-integer-grid error unless both are exact
integers, and otherwise returns the two quotients as integers. -/
theorem c4_size_from_resolution_cases (bbox : BBox) (resolution : ℚ)
    (hres : resolution ≠ 0) :
    (bbox.crs.is_utm = false →
      size_from_resolution bbox resolution =
        .error (.unsupportedCRS "Only UTM crs is supported.")) ∧
    (bbox.crs.is_utm = true →
      (((bbox.x_max - bbox.x_min) / resolution).isInt = true ∧
          ((bbox.y_max - bbox.y_min) / resolution).isInt = true →
        size_from_resolution bbox resolution =
          .ok (((bbox.x_max - bbox.x_min) / resolution).num,
               ((bbox.y_max - bbox.y_min) / resolution).num)) ∧
      (¬(((bbox.x_max - bbox.x_min) / resolution).isInt = true ∧
          ((bbox.y_max - bbox.y_min) / resolution).isInt = true) →
        size_from_resolution bbox resolution =
          .error (.nonIntegerGrid
            "BBox width and height in CRS units are not multiples of resolution."))) := by
  refine ⟨?_, ?_⟩
  · intro hutm
    rw [size_from_resolution, if_pos hutm]
  · intro hutm
    have hutm2 : ¬(bbox.crs.is_utm = false) := by rw [hutm]; simp
    refine ⟨?_, ?_⟩
    · intro hint
      rw [size_from_resolution, if_neg hutm2, if_neg hres, if_pos hint]
    · intro hint
      rw [size_from_resolution, if_neg hutm2, if_neg hres, if_neg hint]

theorem c4_size_from_resolution_cases_witness :
    ((10 : ℚ) ≠ 0) ∧
    (size_from_resolution
        { crs := { is_utm := true, opengis := "EPSG:32633" },
          x_min := 500000, y_min := 5000000, x_max := 500100, y_max := 5000200 } 10 =
      .ok (10, 20)) := by
  have hx : ((500100 : ℚ) - 500000) / 10 = 10 := by norm_num
  have hy : ((5000200 : ℚ) - 5000000) / 10 = 20 := by norm_num
  refine ⟨by norm_num, ?_⟩
  have h := ((c4_size_from_resolution_cases
    { crs := { is_utm := true, opengis := "EPSG:32633" },
      x_min := 500000, y_min := 5000000, x_max := 500100, y_max := 5000200 } 10
    (by norm_num)).2 rfl).1
  simp only at h
  rw [hx, hy] at h
  rw [h ⟨by norm_num [Rat.isInt], by norm_num [Rat.isInt]⟩]
  norm_num

/-- Claim C3, as stated, is false on the cloud-coverage part: the source
computes `int(maxcc * 100)` (truncation), not `round(maxcc * 100)`.  At
maxcc = 0.999 the stored filter is 99 while the claimed rounding gives
100. -/
theorem c3_round_counterexample :
    ((request_from_date sampleTemplate 0 (999 / 1000) 1).input.data.map
        (fun entry => entry.dataFilter.maxCloudCoverage)) = [some 99] ∧
    pyRound ((999 : ℚ) / 1000 * 100) = 100 ∧
    ¬ ((request_from_date sampleTemplate 0 (999 / 1000) 1).input.data.map
        (fun entry => entry.dataFilter.maxCloudCoverage)) =
      [some (pyRound ((999 : ℚ) / 1000 * 100))] := by
  have hval : ((999 : ℚ) / 1000 * 100) = 999 / 10 := by norm_num
  have hfloor : (⌊(999 : ℚ) / 10⌋ : ℤ) = 99 := by
    rw [Int.floor_eq_iff]
    norm_num
  have htrunc : pyInt ((999 : ℚ) / 1000 * 100) = 99 := by
    rw [pyInt, if_pos (by norm_num), hval, hfloor]
  have hround : pyRound ((999 : ℚ) / 1000 * 100) = 100 := by
    rw [pyRound, hval]
    simp only [hfloor]
    rw [if_neg (by push_cast; linarith), if_pos (by push_cast; linarith)]
    norm_num
  refine ⟨?_, hround, ?_⟩
  · rw [show (request_from_date sampleTemplate 0 (999 / 1000) 1).input.data.map
        (fun entry => entry.dataFilter.maxCloudCoverage) =
        [some (pyInt ((999 : ℚ) / 1000 * 100))] from rfl, htrunc]
  · rw [show (request_from_date sampleTemplate 0 (999 / 1000) 1).input.data.map
        (fun entry => entry.dataFilter.maxCloudCoverage) =
        [some (pyInt ((999 : ℚ) / 1000 * 100))] from rfl, htrunc, hround]
    simp

/-- Claim C3 (amended): for every request template, date, maxcc in [0, 1]
and minimum time difference, `request_from_date` returns a payload with one
input-data entry per template entry in which every entry has time filter
`from` = date minus the time difference and `to` = date plus it, serialized
as UTC ISO-8601 with a trailing Z marker, and a cloud-coverage filter equal
to `int(maxcc * 100)`, the truncation toward zero of maxcc times 100 (not
its rounding); the fields outside the data filters are unchanged. -/
theorem c3_amended_request_from_date (request : RequestBody) (date : ℤ)
    (maxcc : ℚ) (time_difference : ℤ) (hcc : 0 ≤ maxcc ∧ maxcc ≤ 1) :
    (request_from_date request date maxcc time_difference).input.data.length =
      request.input.data.length ∧
    (∀ entry ∈ (request_from_date request date maxcc time_difference).input.data,
      entry.dataFilter.timeRange_from = isoformatUTC (date - time_difference) ++ "Z" ∧
      entry.dataFilter.timeRange_to = isoformatUTC (date + time_difference) ++ "Z" ∧
      entry.dataFilter.maxCloudCoverage = some (pyInt (maxcc * 100))) ∧
    (request_from_date request date maxcc time_difference).input.bounds =
      request.input.bounds ∧
    (request_from_date request date maxcc time_difference).output = request.output ∧
    (request_from_date request date maxcc time_difference).evalscript =
      request.evalscript := by
  refine ⟨by simp [request_from_date], ?_, rfl, rfl, rfl⟩
  intro entry hmem
  simp only [request_from_date, List.mem_map] at hmem
  obtain ⟨src, _, hsrc⟩ := hmem
  rw [← hsrc]
  exact ⟨rfl, rfl, rfl⟩

theorem c3_amended_request_from_date_witness :
    ((0 : ℚ) ≤ 1 / 2 ∧ (1 : ℚ) / 2 ≤ 1) ∧
    (request_from_date sampleTemplate 86400 (1 / 2) 60).input.data.length =
      sampleTemplate.input.data.length ∧
    ((request_from_date sampleTemplate 86400 (1 / 2) 60).input.data.map
      (fun entry => entry.dataFilter.maxCloudCoverage)) =
      [some (pyInt ((1 : ℚ) / 2 * 100))] := by
  refine ⟨⟨by norm_num, by norm_num⟩, ?_, rfl⟩
  exact (c3_amended_request_from_date sampleTemplate 86400 (1 / 2) 60
    ⟨by norm_num, by norm_num⟩).1

theorem listIndex_of_mem {x : String} :
    ∀ {l : List String}, x ∈ l → ∃ i, listIndex x l = some i ∧ i < l.length := by
  intro l
  induction l with
  | nil => intro h; simp at h
  | cons y ys ih =>
      intro h
      by_cases hy : y = x
      · exact ⟨0, by simp [listIndex, hy], by simp⟩
      · have hx : x ∈ ys := by
          rcases List.mem_cons.mp h with h1 | h1
          · exact absurd h1.symm hy
          · exact h1
        obtain ⟨i, hi, hlt⟩ := ih hx
        exact ⟨i + 1, by simp [listIndex, hy, hi], by simp; omega⟩

theorem chunksOfAux_take_flatten_length {α : Type} (n k : Nat) (hn : 0 < n) :
    ∀ (m : Nat) (l : List α) (fuel : Nat), l.length = m * n → l.length ≤ fuel →
      (((chunksOfAux n fuel l).map (List.take k)).flatten).length = m * min k n := by
  intro m
  induction m with
  | zero =>
      intro l fuel hl _
      have : l = [] := List.length_eq_zero.mp (by omega)
      subst this
      cases fuel <;> simp [chunksOfAux]
  | succ m ih =>
      intro l fuel hl hfuel
      have hmul : (m + 1) * n = m * n + n := Nat.succ_mul m n
      have hpos : 0 < l.length := by omega
      cases l with
      | nil => simp at hpos
      | cons x xs =>
          cases fuel with
          | zero => omega
          | succ f =>
              have hstep : chunksOfAux n (f + 1) (x :: xs) =
                  (x :: xs).take n :: chunksOfAux n f ((x :: xs).drop n) := rfl
              rw [hstep]
              simp only [List.map_cons, List.flatten_cons, List.length_append]
              have h1 : ((x :: xs).take n).length = n := by
                rw [List.length_take]; omega
              have h2 : (((x :: xs).take n).take k).length = min k n := by
                rw [List.length_take, h1]
              have h3 : ((x :: xs).drop n).length = m * n := by
                rw [List.length_drop]; omega
              rw [h2, ih ((x :: xs).drop n) f h3 (by omega), Nat.succ_mul]
              exact Nat.add_comm (min k n) (m * min k n)

theorem chunksOfAux_getD_length {α : Type} (n idx : Nat) (d : α) (hn : 0 < n) :
    ∀ (m : Nat) (l : List α) (fuel : Nat), l.length = m * n → l.length ≤ fuel →
      ((chunksOfAux n fuel l).map (fun c => c.getD idx d)).length = m := by
  intro m
  induction m with
  | zero =>
      intro l fuel hl _
      have : l = [] := List.length_eq_zero.mp (by omega)
      subst this
      cases fuel <;> simp [chunksOfAux]
  | succ m ih =>
      intro l fuel hl hfuel
      have hmul : (m + 1) * n = m * n + n := Nat.succ_mul m n
      have hpos : 0 < l.length := by omega
      cases l with
      | nil => simp at hpos
      | cons x xs =>
          cases fuel with
          | zero => omega
          | succ f =>
              have hstep : chunksOfAux n (f + 1) (x :: xs) =
                  (x :: xs).take n :: chunksOfAux n f ((x :: xs).drop n) := rfl
              rw [hstep]
              have h3 : ((x :: xs).drop n).length = m * n := by
                rw [List.length_drop]; omega
              simp only [List.map_cons, List.length_cons]
              rw [ih ((x :: xs).drop n) f h3 (by omega)]

theorem chunksOf_take_flatten_length {α : Type} (n k m : Nat) (hn : 0 < n)
    (l : List α) (hl : l.length = m * n) :
    (((chunksOf n l).map (List.take k)).flatten).length = m * min k n := by
  rw [chunksOf, if_neg (by omega)]
  exact chunksOfAux_take_flatten_length n k hn m l l.length hl le_rfl

theorem chunksOf_getD_length {α : Type} (n idx m : Nat) (d : α) (hn : 0 < n)
    (l : List α) (hl : l.length = m * n) :
    ((chunksOf n l).map (fun c => c.getD idx d)).length = m := by
  rw [chunksOf, if_neg (by omega)]
  exact chunksOfAux_getD_length n idx d hn m l l.length hl le_rfl

theorem flatten_length_const {α : Type} (m : Nat) :
    ∀ (L : List (List α)), (∀ x ∈ L, x.length = m) → L.flatten.length = L.length * m := by
  intro L
  induction L with
  | nil => intro _; simp
  | cons x xs ih =>
      intro h
      simp only [List.flatten_cons, List.length_append, List.length_cons]
      rw [h x (by simp), ih (fun y hy => h y (by simp [hy]))]
      ring

theorem allSome_map_of_forall {α β : Type} (f : α → Option β) (g : α → β) :
    ∀ (l : List α), (∀ x ∈ l, f x = some (g x)) →
      allSome (l.map f) = some (l.map g) := by
  intro l
  induction l with
  | nil => intro _; rfl
  | cons x xs ih =>
      intro h
      have hx : f x = some (g x) := h x (by simp)
      simp only [List.map_cons, hx, allSome]
      rw [ih (fun y hy => h y (by simp [hy]))]
      rfl

theorem getFeature_setFeature_same (p : EOPatch) (key : String × String) (v : Layer) :
    getFeature (setFeature p key v) key = some v := by
  simp [getFeature, setFeature, List.find?]

theorem getFeature_setFeature_ne (p : EOPatch) (k key : String × String) (v : Layer)
    (h : k ≠ key) : getFeature (setFeature p k v) key = getFeature p key := by
  simp [getFeature, setFeature, List.find?, h]

theorem getFeature_setMeta (p : EOPatch) (k : String) (v : MetaVal)
    (key : String × String) : getFeature (setMeta p k v) key = getFeature p key := rfl

theorem getMeta_setFeature (p : EOPatch) (key : String × String) (v : Layer)
    (k : String) : getMeta (setFeature p key v) k = getMeta p k := rfl

theorem atleast3d_of_three {a : NDArray ℚ} {H W C : Nat} (h : a.shape = [H, W, C]) :
    atleast3d a = a := by
  simp [atleast3d, h]

theorem lastDim_of_three {α : Type} {a : NDArray α} {H W C : Nat}
    (h : a.shape = [H, W, C]) : a.lastDim = C := by
  simp [NDArray.lastDim, h]

theorem indexLast_three {a : NDArray ℚ} {H W C : Nat} (h : a.shape = [H, W, C])
    (idx : Nat) (hidx : idx < C) :
    indexLast a idx 0 =
      some ⟨[H, W], (chunksOf C a.data).map (fun ch => ch.getD idx 0)⟩ := by
  rw [indexLast, if_pos (by rw [lastDim_of_three h]; exact hidx)]
  rw [lastDim_of_three h, h]
  rfl

theorem assembleAdditional_ok (c : Config) (T H W C : Nat) (hC : 0 < C)
    (hCall : C = c.all_bands.length)
    (images : List (NDArray ℚ × ℚ)) (hT : images.length = T)
    (himg : ∀ iv ∈ images, iv.1.shape = [H, W, C] ∧ iv.1.data.length = (H * W) * C) :
    ∀ (entries : List (String × String × String)) (p : EOPatch),
      (∀ e ∈ entries, e.2.1 ∈ c.all_bands) →
      ∃ p', assembleAdditional c entries images (T : ℤ) (H : ℤ) (W : ℤ) p = (p', none) ∧
        p'.timestamp = p.timestamp ∧ p'.bbox = p.bbox ∧ p'.meta_info = p.meta_info ∧
        (∀ key, (∀ e ∈ entries, (e.1, e.2.2) ≠ key) →
          getFeature p' key = getFeature p key) ∧
        (∀ e ∈ entries, ∃ b : NDArray Bool,
          getFeature p' (e.1, e.2.2) = some (.bool b) ∧ b.shape = [T, H, W, 1]) := by
  intro entries
  induction entries with
  | nil =>
      intro p _
      exact ⟨p, rfl, rfl, rfl, rfl, fun _ _ => rfl, by simp⟩
  | cons e rest ih =>
      intro p hsrc
      obtain ⟨ft, src, dst⟩ := e
      have hmem : src ∈ c.all_bands := hsrc (ft, src, dst) (by simp)
      obtain ⟨idx, hidxEq, hidxLt⟩ := listIndex_of_mem hmem
      have hidxC : idx < C := by rw [hCall]; exact hidxLt
      have hAll : allSome (images.map (fun iv => indexLast (atleast3d iv.1) idx 0)) =
          some (images.map (fun iv =>
            (⟨[H, W], (chunksOf C iv.1.data).map (fun ch => ch.getD idx 0)⟩ : NDArray ℚ))) := by
        apply allSome_map_of_forall
        intro iv hiv
        rw [atleast3d_of_three (himg iv hiv).1]
        exact indexLast_three (himg iv hiv).1 idx hidxC
      have hstackdata : (asarrayStack (images.map (fun iv =>
            (⟨[H, W], (chunksOf C iv.1.data).map (fun ch => ch.getD idx 0)⟩ : NDArray ℚ)))).data =
          ((images.map (fun iv =>
            (⟨[H, W], (chunksOf C iv.1.data).map (fun ch => ch.getD idx 0)⟩ : NDArray ℚ))).map
              NDArray.data).flatten := rfl
      have hflat : ((images.map (fun iv =>
            (⟨[H, W], (chunksOf C iv.1.data).map (fun ch => ch.getD idx 0)⟩ : NDArray ℚ))).map
              NDArray.data).flatten.length = T * (H * W) := by
        rw [List.map_map]
        rw [flatten_length_const (H * W)]
        · rw [List.length_map, hT]
        · intro x hx
          simp only [List.mem_map, Function.comp] at hx
          obtain ⟨iv, hiv, hx2⟩ := hx
          rw [← hx2]
          exact chunksOf_getD_length C idx (H * W) 0 hC iv.1.data (himg iv hiv).2
      have hcond : (∀ z ∈ [(T : ℤ), (H : ℤ), (W : ℤ), 1], 0 ≤ z) ∧
          (([(T : ℤ), (H : ℤ), (W : ℤ), 1].map Int.toNat).prod =
            (asarrayStack (images.map (fun iv =>
              (⟨[H, W], (chunksOf C iv.1.data).map (fun ch => ch.getD idx 0)⟩ : NDArray ℚ)))).data.length) := by
        constructor
        · intro z hz
          simp only [List.mem_cons, List.not_mem_nil, or_false] at hz
          rcases hz with h | h | h | h <;> rw [h] <;> positivity
        · rw [hstackdata, hflat]
          simp only [List.map_cons, List.map_nil, Int.toNat_natCast, Int.toNat_one,
            List.prod_cons, List.prod_nil]
          ring
      have hsh : [(T : ℤ), (H : ℤ), (W : ℤ), 1].map Int.toNat = [T, H, W, 1] := by
        simp only [List.map_cons, List.map_nil, Int.toNat_natCast, Int.toNat_one]
      have hresh : reshapeZ (asarrayStack (images.map (fun iv =>
            (⟨[H, W], (chunksOf C iv.1.data).map (fun ch => ch.getD idx 0)⟩ : NDArray ℚ))))
            [(T : ℤ), (H : ℤ), (W : ℤ), 1] =
          some ⟨[T, H, W, 1], ((images.map (fun iv =>
            (⟨[H, W], (chunksOf C iv.1.data).map (fun ch => ch.getD idx 0)⟩ : NDArray ℚ))).map
              NDArray.data).flatten⟩ := by
        rw [reshapeZ, if_pos hcond, hsh, hstackdata]
      simp only [assembleAdditional, hidxEq, hAll, hresh]
      obtain ⟨p', hEq, hts, hbb, hmeta, hpres, hwritten⟩ :=
        ih (setFeature p (ft, dst) (.bool ((⟨[T, H, W, 1], ((images.map (fun iv =>
          (⟨[H, W], (chunksOf C iv.1.data).map (fun ch => ch.getD idx 0)⟩ : NDArray ℚ))).map
            NDArray.data).flatten⟩ : NDArray ℚ).map (fun v => !(v == 0)))))
          (fun e he => hsrc e (by simp [he]))
      refine ⟨p', hEq, by rw [hts]; rfl, by rw [hbb]; rfl, by rw [hmeta]; rfl, ?_, ?_⟩
      · intro key hkey
        rw [hpres key (fun e he => hkey e (by simp [he]))]
        exact getFeature_setFeature_ne p (ft, dst) key _
          (hkey (ft, src, dst) (by simp))
      · intro e he
        rcases List.mem_cons.mp he with hhead | htail
        · subst hhead
          by_cases hcase : ∃ r ∈ rest, (r.1, r.2.2) = ((ft, src, dst).1, (ft, src, dst).2.2)
          · obtain ⟨r, hr, hrkey⟩ := hcase
            obtain ⟨b, hb, hbs⟩ := hwritten r hr
            exact ⟨b, by rw [← hrkey]; exact hb, hbs⟩
          · push_neg at hcase
            refine ⟨(⟨[T, H, W, 1], ((images.map (fun iv =>
              (⟨[H, W], (chunksOf C iv.1.data).map (fun ch => ch.getD idx 0)⟩ : NDArray ℚ))).map
                NDArray.data).flatten⟩ : NDArray ℚ).map (fun v => !(v == 0)), ?_, rfl⟩
            rw [hpres _ hcase]
            exact getFeature_setFeature_same _ _ _
        · exact hwritten e htail

theorem assembleBands_ok (c : Config) (T H W C : Nat) (hC : 0 < C)
    (hbne : c.bands ≠ []) (hk : c.bands.length ≤ C) (bf : String × String)
    (hbf : c.bands_feature = some bf)
    (images : List (NDArray ℚ × ℚ)) (hT : images.length = T)
    (himg : ∀ iv ∈ images, iv.1.shape = [H, W, C] ∧ iv.1.data.length = (H * W) * C)
    (p : EOPatch) :
    assembleBands c images (T : ℤ) (H : ℤ) (W : ℤ) p =
      (setFeature p bf (.rat ⟨[T, H, W, c.bands.length],
        ((images.map (fun iv =>
          (sliceLast iv.1 c.bands.length).data.map (fun v => v * iv.2))).flatten).map
            round4⟩), none) := by
  have hne : c.bands.isEmpty = false := by
    cases hcb : c.bands with
    | nil => exact absurd hcb hbne
    | cons a l => rfl
  have hslice : ∀ iv ∈ images,
      ((sliceLast iv.1 c.bands.length).data.map (fun v => v * iv.2)).length =
        (H * W) * c.bands.length := by
    intro iv hiv
    rw [List.length_map]
    show (((chunksOf iv.1.lastDim iv.1.data).map (List.take c.bands.length)).flatten).length = _
    rw [lastDim_of_three (himg iv hiv).1]
    rw [chunksOf_take_flatten_length C c.bands.length (H * W) hC iv.1.data (himg iv hiv).2]
    rw [Nat.min_eq_left hk]
  have hstackdata : (asarrayStack (images.map (fun iv =>
        (sliceLast iv.1 c.bands.length).map (fun v => v * iv.2)))).data =
      (images.map (fun iv =>
        (sliceLast iv.1 c.bands.length).data.map (fun v => v * iv.2))).flatten := by
    show ((images.map (fun iv =>
      (sliceLast iv.1 c.bands.length).map (fun v => v * iv.2))).map NDArray.data).flatten = _
    rw [List.map_map]
    rfl
  have hflat : ((images.map (fun iv =>
        (sliceLast iv.1 c.bands.length).data.map (fun v => v * iv.2))).flatten).length =
      T * ((H * W) * c.bands.length) := by
    rw [flatten_length_const ((H * W) * c.bands.length)]
    · rw [List.length_map, hT]
    · intro x hx
      simp only [List.mem_map] at hx
      obtain ⟨iv, hiv, hx2⟩ := hx
      rw [← hx2]
      exact hslice iv hiv
  have hcond : (∀ z ∈ [(T : ℤ), (H : ℤ), (W : ℤ), (c.bands.length : ℤ)], 0 ≤ z) ∧
      (([(T : ℤ), (H : ℤ), (W : ℤ), (c.bands.length : ℤ)].map Int.toNat).prod =
        (asarrayStack (images.map (fun iv =>
          (sliceLast iv.1 c.bands.length).map (fun v => v * iv.2)))).data.length) := by
    constructor
    · intro z hz
      simp only [List.mem_cons, List.not_mem_nil, or_false] at hz
      rcases hz with h | h | h | h <;> rw [h] <;> positivity
    · rw [hstackdata, hflat]
      simp only [List.map_cons, List.map_nil, Int.toNat_natCast, List.prod_cons, List.prod_nil]
      ring
  have hsh : [(T : ℤ), (H : ℤ), (W : ℤ), (c.bands.length : ℤ)].map Int.toNat =
      [T, H, W, c.bands.length] := by
    simp only [List.map_cons, List.map_nil, Int.toNat_natCast]
  have hresh : reshapeZ (asarrayStack (images.map (fun iv =>
        (sliceLast iv.1 c.bands.length).map (fun v => v * iv.2))))
        [(T : ℤ), (H : ℤ), (W : ℤ), (c.bands.length : ℤ)] =
      some ⟨[T, H, W, c.bands.length], (images.map (fun iv =>
        (sliceLast iv.1 c.bands.length).data.map (fun v => v * iv.2))).flatten⟩ := by
    rw [reshapeZ, if_pos hcond, hsh, hstackdata]
  simp only [assembleBands, hne, Bool.false_eq_true, if_false, hresh, hbf]
  rfl

theorem assembleAdditional_no_bandNotFound (c : Config)
    (images : List (NDArray ℚ × ℚ)) (t sy sx : ℤ) :
    ∀ (entries : List (String × String × String)) (p p' : EOPatch) (e : PipelineError),
      (∀ ent ∈ entries, ent.2.1 ∈ c.all_bands) →
      assembleAdditional c entries images t sy sx p = (p', some e) →
      e = .channelOutOfRange ∨ e = .shapeMismatch := by
  intro entries
  induction entries with
  | nil =>
      intro p p' e _ h
      simp only [assembleAdditional, Prod.mk.injEq] at h
      exact absurd h.2 (by simp)
  | cons ent rest ih =>
      intro p p' e hsrc h
      obtain ⟨ft, src, dst⟩ := ent
      obtain ⟨idx, hidxEq, _⟩ := listIndex_of_mem (hsrc (ft, src, dst) (by simp))
      cases hall : allSome (images.map fun iv => indexLast (atleast3d iv.1) idx 0) with
      | none =>
          simp only [assembleAdditional, hidxEq, hall, Prod.mk.injEq] at h
          left
          exact (Option.some.inj h.2).symm
      | some arrs =>
          cases hres : reshapeZ (asarrayStack arrs) [t, sy, sx, 1] with
          | none =>
              simp only [assembleAdditional, hidxEq, hall, hres, Prod.mk.injEq] at h
              right
              exact (Option.some.inj h.2).symm
          | some arr =>
              simp only [assembleAdditional, hidxEq, hall, hres] at h
              exact ih _ p' e (fun ent hent => hsrc ent (by simp [hent])) h

theorem assembleBands_err (c : Config) (images : List (NDArray ℚ × ℚ))
    (t sy sx : ℤ) (p p' : EOPatch) (e : PipelineError)
    (h : assembleBands c images t sy sx p = (p', some e)) :
    e = .shapeMismatch ∨ (e = .nameErr ∧ c.bands_feature = none ∧ c.bands ≠ []) := by
  by_cases hemp : c.bands.isEmpty = true
  · simp only [assembleBands, hemp, if_true, Prod.mk.injEq] at h
    exact absurd h.2 (by simp)
  · have hbne : c.bands ≠ [] := by
      intro hnil
      exact hemp (by rw [hnil]; rfl)
    have hne2 : c.bands.isEmpty = false := by
      revert hemp
      cases c.bands.isEmpty <;> simp
    cases hres : reshapeZ (asarrayStack (images.map (fun iv =>
        (sliceLast iv.1 c.bands.length).map (fun v => v * iv.2))))
        [t, sy, sx, (c.bands.length : ℤ)] with
    | none =>
        simp only [assembleBands, hne2, Bool.false_eq_true, if_false, hres,
          Prod.mk.injEq] at h
        left
        exact (Option.some.inj h.2).symm
    | some arr =>
        cases hbf : c.bands_feature with
        | none =>
            simp only [assembleBands, hne2, Bool.false_eq_true, if_false, hres, hbf,
              Prod.mk.injEq] at h
            right
            exact ⟨(Option.some.inj h.2).symm, rfl, hbne⟩
        | some bf =>
            simp only [assembleBands, hne2, Bool.false_eq_true, if_false, hres, hbf,
              Prod.mk.injEq] at h
            exact absurd h.2 (by simp)

theorem bands_feature_some_of_bands_ne {c : Config} (h : c.bands ≠ []) :
    ∃ bf, c.bands_feature = some bf := by
  cases hbf : c.bands_feature with
  | none =>
      exfalso
      apply h
      simp [Config.bands, hbf]
  | some bf => exact ⟨bf, rfl⟩

theorem assembleAdditional_fst_congr (c : Config) (t sy sx : ℤ) :
    ∀ (entries : List (String × String × String))
      (images images' : List (NDArray ℚ × ℚ)) (p : EOPatch),
      images.map Prod.fst = images'.map Prod.fst →
      assembleAdditional c entries images t sy sx p =
        assembleAdditional c entries images' t sy sx p := by
  intro entries
  induction entries with
  | nil => intro images images' p _; rfl
  | cons ent rest ih =>
      intro images images' p h
      obtain ⟨ft, src, dst⟩ := ent
      cases hidx : listIndex src c.all_bands with
      | none => simp only [assembleAdditional, hidx]
      | some idx =>
          have hmap : images.map (fun iv => indexLast (atleast3d iv.1) idx 0) =
              images'.map (fun iv => indexLast (atleast3d iv.1) idx 0) := by
            have h1 : images.map (fun iv => indexLast (atleast3d iv.1) idx 0) =
                (images.map Prod.fst).map (fun a => indexLast (atleast3d a) idx 0) := by
              rw [List.map_map]
              rfl
            have h2 : images'.map (fun iv => indexLast (atleast3d iv.1) idx 0) =
                (images'.map Prod.fst).map (fun a => indexLast (atleast3d a) idx 0) := by
              rw [List.map_map]
              rfl
            rw [h1, h2, h]
          simp only [assembleAdditional, hidx, hmap]
          cases hall : allSome (images'.map fun iv => indexLast (atleast3d iv.1) idx 0) with
          | none => simp only [hall]
          | some arrs =>
              simp only [hall]
              cases hres : reshapeZ (asarrayStack arrs) [t, sy, sx, 1] with
              | none => simp only [hres]
              | some arr =>
                  simp only [hres]
                  exact ih images images' _ h

theorem execute_success_char (c : Config) (eopArg : Option EOPatch) (bbox : BBox)
    (ti : String × String) (wfs : List ℤ) (client : List RequestBody → List Response)
    (T H W C : Nat) (hC : 0 < C) (hCall : C = c.all_bands.length)
    (hres : resolve_size c.size c.resolution bbox = .ok ((W : ℤ), (H : ℤ)))
    (hwfs : ¬ wfs.length = 0)
    (hT : (filter_dates c.time_difference (pySorted wfs)).length = T)
    (hRlen : (client (executeRequests c bbox (W : ℤ) (H : ℤ)
        (filter_dates c.time_difference (pySorted wfs)))).length = T)
    (hRimg : ∀ r ∈ client (executeRequests c bbox (W : ℤ) (H : ℤ)
        (filter_dates c.time_difference (pySorted wfs))),
      r.default_tif.shape = [H, W, C] ∧ r.default_tif.data.length = (H * W) * C)
    (hbne : c.bands ≠ []) (bf : String × String) (hbf : c.bands_feature = some bf) :
    ∃ pF, execute c eopArg bbox ti wfs client = (pF, none) ∧
      pF.timestamp = filter_dates c.time_difference (pySorted wfs) ∧
      pF.bbox = some bbox ∧
      getFeature pF bf = some (.rat ⟨[T, H, W, c.bands.length],
        (((client (executeRequests c bbox (W : ℤ) (H : ℤ)
            (filter_dates c.time_difference (pySorted wfs)))).map (fun r =>
          (sliceLast r.default_tif c.bands.length).data.map
            (fun v => v * normFactor r.userdata_json))).flatten).map round4⟩) ∧
      (∀ e ∈ c.additional_data, (e.1, e.2.2) ≠ bf →
        ∃ b : NDArray Bool, getFeature pF (e.1, e.2.2) = some (.bool b) ∧
          b.shape = [T, H, W, 1]) ∧
      getMeta pF "service_type" = some (.str "processing") ∧
      getMeta pF "size_x" = some (.int (W : ℤ)) ∧
      getMeta pF "size_y" = some (.int (H : ℤ)) ∧
      getMeta pF "resolution" = some (.optRat c.resolution) ∧
      getMeta pF "maxcc" = some (.rat c.maxcc) ∧
      getMeta pF "time_interval" = some (.interval ti) ∧
      getMeta pF "time_difference" = some (.timedelta c.time_difference) ∧
      (∀ client', (client' (executeRequests c bbox (W : ℤ) (H : ℤ)
          (filter_dates c.time_difference (pySorted wfs)))).map (fun r => r.default_tif) =
        (client (executeRequests c bbox (W : ℤ) (H : ℤ)
          (filter_dates c.time_difference (pySorted wfs)))).map (fun r => r.default_tif) →
        (execute c eopArg bbox ti wfs client').2 = none ∧
        ∀ key, key ≠ bf →
          getFeature (execute c eopArg bbox ti wfs client').1 key =
            getFeature pF key) := by
  have hk : c.bands.length ≤ C := by
    rw [hCall, Config.all_bands]
    simp
  have hgd : get_dates c.time_difference ti wfs =
      .ok (filter_dates c.time_difference (pySorted wfs)) := by
    rw [get_dates, if_neg hwfs]
  have himg : ∀ iv ∈ (client (executeRequests c bbox (W : ℤ) (H : ℤ)
      (filter_dates c.time_difference (pySorted wfs)))).map
        (fun r => (r.default_tif, normFactor r.userdata_json)),
      iv.1.shape = [H, W, C] ∧ iv.1.data.length = (H * W) * C := by
    intro iv hiv
    simp only [List.mem_map] at hiv
    obtain ⟨r, hr, hiv2⟩ := hiv
    rw [← hiv2]
    exact hRimg r hr
  have himgLen : ((client (executeRequests c bbox (W : ℤ) (H : ℤ)
      (filter_dates c.time_difference (pySorted wfs)))).map
        (fun r => (r.default_tif, normFactor r.userdata_json))).length = T := by
    rw [List.length_map, hRlen]
  have hsrc : ∀ e ∈ c.additional_data, e.2.1 ∈ c.all_bands := by
    intro e he
    rw [Config.all_bands]
    exact List.mem_append_right _ (List.mem_map.mpr ⟨e, he, rfl⟩)
  obtain ⟨p2, hA, hts, hbb, hmeta, hpres, hwritten⟩ :=
    assembleAdditional_ok c T H W C hC hCall
      ((client (executeRequests c bbox (W : ℤ) (H : ℤ)
        (filter_dates c.time_difference (pySorted wfs)))).map
          (fun r => (r.default_tif, normFactor r.userdata_json))) himgLen himg
      c.additional_data
      { eopArg.getD EOPatch.empty with
          timestamp := filter_dates c.time_difference (pySorted wfs)
          bbox := some bbox } hsrc
  have hB := assembleBands_ok c T H W C hC hbne hk bf hbf
      ((client (executeRequests c bbox (W : ℤ) (H : ℤ)
        (filter_dates c.time_difference (pySorted wfs)))).map
          (fun r => (r.default_tif, normFactor r.userdata_json))) himgLen himg p2
  have hconv : ((client (executeRequests c bbox (W : ℤ) (H : ℤ)
        (filter_dates c.time_difference (pySorted wfs)))).map
          (fun r => (r.default_tif, normFactor r.userdata_json))).map
        (fun iv => (sliceLast iv.1 c.bands.length).data.map (fun v => v * iv.2)) =
      (client (executeRequests c bbox (W : ℤ) (H : ℤ)
        (filter_dates c.time_difference (pySorted wfs)))).map (fun r =>
          (sliceLast r.default_tif c.bands.length).data.map
            (fun v => v * normFactor r.userdata_json)) := by
    rw [List.map_map]
    rfl
  rw [hconv] at hB
  refine ⟨setMeta (setMeta (setMeta (setMeta (setMeta (setMeta (setMeta
      (setFeature p2 bf (.rat ⟨[T, H, W, c.bands.length],
        (((client (executeRequests c bbox (W : ℤ) (H : ℤ)
            (filter_dates c.time_difference (pySorted wfs)))).map (fun r =>
          (sliceLast r.default_tif c.bands.length).data.map
            (fun v => v * normFactor r.userdata_json))).flatten).map round4⟩))
      "service_type" (.str "processing"))
      "size_x" (.int (W : ℤ)))
      "size_y" (.int (H : ℤ)))
      "resolution" (.optRat c.resolution))
      "maxcc" (.rat c.maxcc))
      "time_interval" (.interval ti))
      "time_difference" (.timedelta c.time_difference),
    ?_, ?_, ?_, ?_, ?_, ?_, ?_, ?_, ?_, ?_, ?_, ?_, ?_⟩
  · simp only [execute, hres, hgd]
    rw [hT]
    simp only [hA, hB]
  · show p2.timestamp = _
    rw [hts]
  · show p2.bbox = _
    rw [hbb]
  · show getFeature (setFeature p2 bf _) bf = _
    exact getFeature_setFeature_same _ _ _
  · intro e he hne
    show ∃ b : NDArray Bool, getFeature (setFeature p2 bf _) (e.1, e.2.2) = _ ∧ _
    rw [getFeature_setFeature_ne p2 bf (e.1, e.2.2) _ (Ne.symm hne)]
    exact hwritten e he
  · rfl
  · rfl
  · rfl
  · rfl
  · rfl
  · rfl
  · rfl
  · intro client' hsame
    have hlen' : (client' (executeRequests c bbox (W : ℤ) (H : ℤ)
        (filter_dates c.time_difference (pySorted wfs)))).length = T := by
      have hll := congrArg List.length hsame
      rw [List.length_map, List.length_map] at hll
      rw [hll, hRlen]
    have himg' : ∀ r' ∈ client' (executeRequests c bbox (W : ℤ) (H : ℤ)
        (filter_dates c.time_difference (pySorted wfs))),
        r'.default_tif.shape = [H, W, C] ∧ r'.default_tif.data.length = (H * W) * C := by
      intro r' hr'
      have htif : r'.default_tif ∈ (client' (executeRequests c bbox (W : ℤ) (H : ℤ)
          (filter_dates c.time_difference (pySorted wfs)))).map (fun r => r.default_tif) :=
        List.mem_map.mpr ⟨r', hr', rfl⟩
      rw [hsame] at htif
      obtain ⟨r, hr, heq⟩ := List.mem_map.mp htif
      rw [← heq]
      exact hRimg r hr
    have himgAll' : ∀ iv ∈ (client' (executeRequests c bbox (W : ℤ) (H : ℤ)
        (filter_dates c.time_difference (pySorted wfs)))).map
          (fun r => (r.default_tif, normFactor r.userdata_json)),
        iv.1.shape = [H, W, C] ∧ iv.1.data.length = (H * W) * C := by
      intro iv hiv
      simp only [List.mem_map] at hiv
      obtain ⟨r, hr, hiv2⟩ := hiv
      rw [← hiv2]
      exact himg' r hr
    have himgLen' : ((client' (executeRequests c bbox (W : ℤ) (H : ℤ)
        (filter_dates c.time_difference (pySorted wfs)))).map
          (fun r => (r.default_tif, normFactor r.userdata_json))).length = T := by
      rw [List.length_map, hlen']
    have hfst : ((client' (executeRequests c bbox (W : ℤ) (H : ℤ)
        (filter_dates c.time_difference (pySorted wfs)))).map
          (fun r => (r.default_tif, normFactor r.userdata_json))).map Prod.fst =
        ((client (executeRequests c bbox (W : ℤ) (H : ℤ)
          (filter_dates c.time_difference (pySorted wfs)))).map
            (fun r => (r.default_tif, normFactor r.userdata_json))).map Prod.fst := by
      rw [List.map_map, List.map_map]
      exact hsame
    have hA' : assembleAdditional c c.additional_data
        ((client' (executeRequests c bbox (W : ℤ) (H : ℤ)
          (filter_dates c.time_difference (pySorted wfs)))).map
            (fun r => (r.default_tif, normFactor r.userdata_json))) (T : ℤ) (H : ℤ) (W : ℤ)
        { eopArg.getD EOPatch.empty with
            timestamp := filter_dates c.time_difference (pySorted wfs)
            bbox := some bbox } = (p2, none) := by
      rw [assembleAdditional_fst_congr c (T : ℤ) (H : ℤ) (W : ℤ) c.additional_data _ _ _ hfst]
      exact hA
    have hB' := assembleBands_ok c T H W C hC hbne hk bf hbf
        ((client' (executeRequests c bbox (W : ℤ) (H : ℤ)
          (filter_dates c.time_difference (pySorted wfs)))).map
            (fun r => (r.default_tif, normFactor r.userdata_json))) himgLen' himgAll' p2
    constructor
    · simp only [execute, hres, hgd]
      rw [hT]
      simp only [hA', hB']
    · intro key hkey
      have hred : execute c eopArg bbox ti wfs client' =
          (setMeta (setMeta (setMeta (setMeta (setMeta (setMeta (setMeta
            (setFeature p2 bf (.rat (NDArray.map round4 ⟨[T, H, W, c.bands.length],
              (((client' (executeRequests c bbox (W : ℤ) (H : ℤ)
                (filter_dates c.time_difference (pySorted wfs)))).map
                  (fun r => (r.default_tif, normFactor r.userdata_json))).map
                (fun iv => (sliceLast iv.1 c.bands.length).data.map
                  (fun v => v * iv.2))).flatten⟩)))
            "service_type" (.str "processing"))
            "size_x" (.int (W : ℤ)))
            "size_y" (.int (H : ℤ)))
            "resolution" (.optRat c.resolution))
            "maxcc" (.rat c.maxcc))
            "time_interval" (.interval ti))
            "time_difference" (.timedelta c.time_difference), none) := by
        simp only [execute, hres, hgd]
        rw [hT]
        simp only [hA', hB']
        rfl
      rw [hred]
      show getFeature (setFeature p2 bf _) key = getFeature (setFeature p2 bf _) key
      rw [getFeature_setFeature_ne p2 bf key _ (Ne.symm hkey),
        getFeature_setFeature_ne p2 bf key _ (Ne.symm hkey)]

theorem assembleAdditional_err_kinds (c : Config) (images : List (NDArray ℚ × ℚ))
    (t sy sx : ℤ) :
    ∀ (entries : List (String × String × String)) (p p' : EOPatch) (e : PipelineError),
      assembleAdditional c entries images t sy sx p = (p', some e) →
      e = .bandNotFound ∨ e = .channelOutOfRange ∨ e = .shapeMismatch := by
  intro entries
  induction entries with
  | nil =>
      intro p p' e h
      simp only [assembleAdditional, Prod.mk.injEq] at h
      exact absurd h.2 (by simp)
  | cons ent rest ih =>
      intro p p' e h
      obtain ⟨ft, src, dst⟩ := ent
      cases hidx : listIndex src c.all_bands with
      | none =>
          simp only [assembleAdditional, hidx, Prod.mk.injEq] at h
          left
          exact (Option.some.inj h.2).symm
      | some idx =>
          cases hall : allSome (images.map fun iv => indexLast (atleast3d iv.1) idx 0) with
          | none =>
              simp only [assembleAdditional, hidx, hall, Prod.mk.injEq] at h
              right; left
              exact (Option.some.inj h.2).symm
          | some arrs =>
              cases hres : reshapeZ (asarrayStack arrs) [t, sy, sx, 1] with
              | none =>
                  simp only [assembleAdditional, hidx, hall, hres, Prod.mk.injEq] at h
                  right; right
                  exact (Option.some.inj h.2).symm
              | some arr =>
                  simp only [assembleAdditional, hidx, hall, hres] at h
                  exact ih _ p' e h

/-- Claim C2: for every execution with N resolved dates, N responses each
carrying an H by W by C primary image (C being the full script band count),
and a band selection of size k (k is at most C since the selection is a
prefix of the script bands), the execution succeeds, the assembled primary
layer has shape (N, H, W, k), every auxiliary layer is boolean with shape
(N, H, W, 1), and every raster layer stored in this execution therefore
shares the same leading extents N, H, W; the timestamp list has length
N. -/
theorem c2_assembly_shapes (c : Config) (eopArg : Option EOPatch) (bbox : BBox)
    (ti : String × String) (wfs : List ℤ) (client : List RequestBody → List Response)
    (N H W C : Nat) (hC : 0 < C) (hCall : C = c.all_bands.length)
    (hres : resolve_size c.size c.resolution bbox = .ok ((W : ℤ), (H : ℤ)))
    (hwfs : ¬ wfs.length = 0)
    (hN : (filter_dates c.time_difference (pySorted wfs)).length = N)
    (hRlen : (client (executeRequests c bbox (W : ℤ) (H : ℤ)
        (filter_dates c.time_difference (pySorted wfs)))).length = N)
    (hRimg : ∀ r ∈ client (executeRequests c bbox (W : ℤ) (H : ℤ)
        (filter_dates c.time_difference (pySorted wfs))),
      r.default_tif.shape = [H, W, C] ∧ r.default_tif.data.length = (H * W) * C)
    (hbne : c.bands ≠ []) (bf : String × String) (hbf : c.bands_feature = some bf)
    (hdisj : ∀ e ∈ c.additional_data, (e.1, e.2.2) ≠ bf) :
    (execute c eopArg bbox ti wfs client).2 = none ∧
    (∃ arr : NDArray ℚ,
      getFeature (execute c eopArg bbox ti wfs client).1 bf = some (.rat arr) ∧
      arr.shape = [N, H, W, c.bands.length]) ∧
    (∀ e ∈ c.additional_data, ∃ b : NDArray Bool,
      getFeature (execute c eopArg bbox ti wfs client).1 (e.1, e.2.2) =
        some (.bool b) ∧ b.shape = [N, H, W, 1]) ∧
    (execute c eopArg bbox ti wfs client).1.timestamp.length = N := by
  obtain ⟨pF, hE, hts, _, hband, haux, _⟩ :=
    execute_success_char c eopArg bbox ti wfs client N H W C hC hCall hres hwfs hN
      hRlen hRimg hbne bf hbf
  rw [hE]
  refine ⟨rfl, ⟨_, hband, rfl⟩, ?_, ?_⟩
  · intro e he
    exact haux e he (hdisj e he)
  · rw [show (pF, (none : Option PipelineError)).1 = pF from rfl, hts, hN]

/-- Claim C5: for every execution with a non-empty band selection, the
stored primary layer is obtained by slicing the first `len(bands)` channels
of each response (the 32-bit float cast is the identity on the modelled
exact values), multiplying elementwise by that response's normalization
factor, stacking across time, reshaping to (T, H, W, band count) and
rounding to four decimals; the normalization factor falls back to 0 when
the side-metadata object is absent or lacks the `norm_factor` field; and
the auxiliary layers never depend on the normalization factors (any client
returning the same primary images yields identical auxiliary layers). -/
theorem c5_normalization (c : Config) (eopArg : Option EOPatch) (bbox : BBox)
    (ti : String × String) (wfs : List ℤ) (client : List RequestBody → List Response)
    (N H W C : Nat) (hC : 0 < C) (hCall : C = c.all_bands.length)
    (hres : resolve_size c.size c.resolution bbox = .ok ((W : ℤ), (H : ℤ)))
    (hwfs : ¬ wfs.length = 0)
    (hN : (filter_dates c.time_difference (pySorted wfs)).length = N)
    (hRlen : (client (executeRequests c bbox (W : ℤ) (H : ℤ)
        (filter_dates c.time_difference (pySorted wfs)))).length = N)
    (hRimg : ∀ r ∈ client (executeRequests c bbox (W : ℤ) (H : ℤ)
        (filter_dates c.time_difference (pySorted wfs))),
      r.default_tif.shape = [H, W, C] ∧ r.default_tif.data.length = (H * W) * C)
    (hbne : c.bands ≠ []) (bf : String × String) (hbf : c.bands_feature = some bf) :
    (execute c eopArg bbox ti wfs client).2 = none ∧
    getFeature (execute c eopArg bbox ti wfs client).1 bf =
      some (.rat ⟨[N, H, W, c.bands.length],
        (((client (executeRequests c bbox (W : ℤ) (H : ℤ)
            (filter_dates c.time_difference (pySorted wfs)))).map (fun r =>
          (sliceLast r.default_tif c.bands.length).data.map
            (fun v => v * normFactor r.userdata_json))).flatten).map round4⟩) ∧
    normFactor none = 0 ∧ normFactor (some none) = 0 ∧
    (∀ client', (client' (executeRequests c bbox (W : ℤ) (H : ℤ)
        (filter_dates c.time_difference (pySorted wfs)))).map (fun r => r.default_tif) =
      (client (executeRequests c bbox (W : ℤ) (H : ℤ)
        (filter_dates c.time_difference (pySorted wfs)))).map (fun r => r.default_tif) →
      ∀ e ∈ c.additional_data, (e.1, e.2.2) ≠ bf →
        getFeature (execute c eopArg bbox ti wfs client').1 (e.1, e.2.2) =
          getFeature (execute c eopArg bbox ti wfs client).1 (e.1, e.2.2)) := by
  obtain ⟨pF, hE, _, _, hband, _, _, _, _, _, _, _, _, hinv⟩ :=
    execute_success_char c eopArg bbox ti wfs client N H W C hC hCall hres hwfs hN
      hRlen hRimg hbne bf hbf
  rw [hE]
  refine ⟨rfl, hband, rfl, rfl, ?_⟩
  intro client' hsame e he hne
  exact (hinv client' hsame).2 (e.1, e.2.2) hne

/-- Claim C8: whenever `execute` fails with any error other than the
response-malformation errors the claim does not cover (a wrong response
shape or a response missing a channel, which numpy raises mid-assembly),
the caller-provided output dataset is returned unmutated: the empty-result,
unsupported-CRS and non-integer-grid errors (and the unbound-size error)
are all raised before any output mutation begins, and the
band-name-missing error can never fire because the constructor builds
`all_bands` from the same additional-data list the assembly loop walks. -/
theorem c8_error_no_mutation (c : Config) (eopArg : Option EOPatch) (bbox : BBox)
    (ti : String × String) (wfs : List ℤ) (client : List RequestBody → List Response)
    (e : PipelineError)
    (h : (execute c eopArg bbox ti wfs client).2 = some e)
    (hsh : e ≠ .shapeMismatch) (hch : e ≠ .channelOutOfRange) :
    (execute c eopArg bbox ti wfs client).1 = eopArg.getD EOPatch.empty := by
  cases hr : resolve_size c.size c.resolution bbox with
  | error e0 => simp only [execute, hr]
  | ok s =>
      obtain ⟨sx, sy⟩ := s
      cases hg : get_dates c.time_difference ti wfs with
      | error e0 => simp only [execute, hr, hg]
      | ok dates =>
          simp only [execute, hr, hg] at h ⊢
          split at h
          next p2 e0 heq =>
            exfalso
            have he0 : e0 = e := by simpa using h
            have hsrc : ∀ ent ∈ c.additional_data, ent.2.1 ∈ c.all_bands := by
              intro ent hent
              rw [Config.all_bands]
              exact List.mem_append_right _ (List.mem_map.mpr ⟨ent, hent, rfl⟩)
            rcases assembleAdditional_no_bandNotFound c _ _ _ _ c.additional_data _ p2 e0
              hsrc heq with h1 | h1
            · exact hch (by rw [← he0, h1])
            · exact hsh (by rw [← he0, h1])
          next p2 heq =>
            split at h
            next p3 e0 heq2 =>
              exfalso
              have he0 : e0 = e := by simpa using h
              rcases assembleBands_err c _ _ _ _ p2 p3 e0 heq2 with h1 | ⟨_, hbfnone, hbne⟩
              · exact hsh (by rw [← he0, h1])
              · obtain ⟨bf, hbf⟩ := bands_feature_some_of_bands_ne hbne
                rw [hbf] at hbfnone
                exact absurd hbfnone (by simp)
            next p3 heq2 => simp at h

/-- Claim C9 (amended): every successful execution of the MAIN pipeline
records the provenance metadata (service type, resolved width and height,
resolution, cloud threshold, requested time interval, and the minimum time
difference) on the output dataset; the elevation (DEM) variant records no
provenance metadata at all: its output keeps exactly the metadata mapping
the caller passed in. -/
theorem c9_amended_provenance (c : Config) (eopArg : Option EOPatch) (bbox : BBox)
    (ti : String × String) (wfs : List ℤ) (client : List RequestBody → List Response)
    (dcfg : DEMConfig) (deopArg : Option EOPatch) (dbbox : BBox)
    (dclient : RequestBody → Response) :
    ((execute c eopArg bbox ti wfs client).2 = none →
      getMeta (execute c eopArg bbox ti wfs client).1 "service_type" =
        some (.str "processing") ∧
      (∃ sx sy : ℤ, resolve_size c.size c.resolution bbox = .ok (sx, sy) ∧
        getMeta (execute c eopArg bbox ti wfs client).1 "size_x" = some (.int sx) ∧
        getMeta (execute c eopArg bbox ti wfs client).1 "size_y" = some (.int sy)) ∧
      getMeta (execute c eopArg bbox ti wfs client).1 "resolution" =
        some (.optRat c.resolution) ∧
      getMeta (execute c eopArg bbox ti wfs client).1 "maxcc" = some (.rat c.maxcc) ∧
      getMeta (execute c eopArg bbox ti wfs client).1 "time_interval" =
        some (.interval ti) ∧
      getMeta (execute c eopArg bbox ti wfs client).1 "time_difference" =
        some (.timedelta c.time_difference)) ∧
    (executeDEM dcfg deopArg dbbox dclient).1.meta_info =
      (deopArg.getD EOPatch.empty).meta_info := by
  constructor
  · intro hsucc
    cases hr : resolve_size c.size c.resolution bbox with
    | error e0 => simp [execute, hr] at hsucc
    | ok s =>
        obtain ⟨sx, sy⟩ := s
        cases hg : get_dates c.time_difference ti wfs with
        | error e0 => simp [execute, hr, hg] at hsucc
        | ok dates =>
            simp only [execute, hr, hg] at hsucc ⊢
            split at hsucc
            next p2 e0 heq => simp at hsucc
            next p2 heq =>
              split at hsucc
              next p3 e0 heq2 => simp at hsucc
              next p3 heq2 =>
                simp only [heq, heq2]
                exact ⟨rfl, ⟨sx, sy, rfl, rfl, rfl⟩, rfl, rfl, rfl, rfl⟩
  · cases hsz : dcfg.size with
    | none => simp only [executeDEM, hsz]
    | some s =>
        obtain ⟨sx, sy⟩ := s
        cases hbf : dcfg.bands_feature with
        | none => simp only [executeDEM, hsz, hbf]
        | some bf => simp only [executeDEM, hsz, hbf, setFeature]

theorem execute_size_some_err_kinds (c : Config) (sz : ℤ × ℤ) (hsz : c.size = some sz)
    (eopArg : Option EOPatch) (bbox : BBox) (ti : String × String) (wfs : List ℤ)
    (client : List RequestBody → List Response) (e : PipelineError)
    (h : (execute c eopArg bbox ti wfs client).2 = some e) :
    (∃ msg, e = .emptyResult msg) ∨ e = .bandNotFound ∨ e = .channelOutOfRange ∨
      e = .shapeMismatch ∨ e = .nameErr := by
  obtain ⟨szx, szy⟩ := sz
  have hres : resolve_size c.size c.resolution bbox = .ok (szx, szy) := by
    simp only [resolve_size, hsz]
  cases hg : get_dates c.time_difference ti wfs with
  | error e0 =>
      have hform : ∃ msg, e0 = .emptyResult msg := by
        have hg2 := hg
        rw [get_dates] at hg2
        by_cases hlen : wfs.length = 0
        · rw [if_pos hlen] at hg2
          exact ⟨_, (Except.error.inj hg2).symm⟩
        · rw [if_neg hlen] at hg2
          exact absurd hg2 (by simp)
      simp only [execute, hres, hg] at h
      obtain ⟨msg, he0⟩ := hform
      have h' : e0 = e := by simpa using h
      exact Or.inl ⟨msg, h' ▸ he0⟩
  | ok dates =>
      simp only [execute, hres, hg] at h
      split at h
      next p2 e0 heq =>
        have h' : e0 = e := by simpa using h
        rcases assembleAdditional_err_kinds c _ _ _ _ c.additional_data _ p2 e0 heq
          with h1 | h1 | h1
        · exact Or.inr (Or.inl (h' ▸ h1))
        · exact Or.inr (Or.inr (Or.inl (h' ▸ h1)))
        · exact Or.inr (Or.inr (Or.inr (Or.inl (h' ▸ h1))))
      next p2 heq =>
        split at h
        next p3 e0 heq2 =>
          have h' : e0 = e := by simpa using h
          rcases assembleBands_err c _ _ _ _ p2 p3 e0 heq2 with h1 | ⟨h1, _, _⟩
          · exact Or.inr (Or.inr (Or.inr (Or.inl (h' ▸ h1))))
          · exact Or.inr (Or.inr (Or.inr (Or.inr (h' ▸ h1))))
        next p3 heq2 => simp at h

/-- Claim C10: in every execution where an explicit size is configured, the
grid dimensions are taken verbatim from it and the resolution-based grid
resolver is never invoked, so the projected-CRS and exact-divisibility
checks are skipped even when a resolution is also configured: the size
resolution returns the configured pair for every bounding box and
resolution, and the execution can never fail with the unsupported-CRS or
non-integer-grid error. -/
theorem c10_size_verbatim (c : Config) (sz : ℤ × ℤ) (hsz : c.size = some sz)
    (eopArg : Option EOPatch) (bbox : BBox) (ti : String × String) (wfs : List ℤ)
    (client : List RequestBody → List Response) :
    resolve_size c.size c.resolution bbox = .ok sz ∧
    (∀ m, (execute c eopArg bbox ti wfs client).2 ≠ some (.unsupportedCRS m)) ∧
    (∀ m, (execute c eopArg bbox ti wfs client).2 ≠ some (.nonIntegerGrid m)) := by
  refine ⟨by simp only [resolve_size, hsz], ?_, ?_⟩
  · intro m hcon
    rcases execute_size_some_err_kinds c sz hsz eopArg bbox ti wfs client _ hcon
      with ⟨msg, h1⟩ | h1 | h1 | h1 | h1 <;> simp at h1
  · intro m hcon
    rcases execute_size_some_err_kinds c sz hsz eopArg bbox ti wfs client _ hcon
      with ⟨msg, h1⟩ | h1 | h1 | h1 | h1 <;> simp at h1

theorem c2_assembly_shapes_witness :
    (execute wCfg none wBBox ("2020-01-01", "2020-01-02") [0] wClient).2 = none ∧
    (execute wCfg none wBBox ("2020-01-01", "2020-01-02") [0] wClient).1.timestamp.length
      = 1 := by
  have h := c2_assembly_shapes wCfg none wBBox ("2020-01-01", "2020-01-02") [0] wClient
    1 1 1 2 (by decide) (by decide) rfl (by decide) (by decide) rfl (by decide)
    (by decide) ("DATA", "BANDS") rfl (by decide)
  exact ⟨h.1, h.2.2.2⟩

theorem c5_normalization_witness :
    (execute wCfg none wBBox ("2020-01-01", "2020-01-02") [0] wClient).2 = none ∧
    normFactor (none : Option (Option ℚ)) = 0 ∧
    getFeature (execute wCfg none wBBox ("2020-01-01", "2020-01-02") [0] wClient).1
        ("DATA", "BANDS") =
      some (.rat ⟨[1, 1, 1, 1],
        (((wClient (executeRequests wCfg wBBox ((1 : Nat) : ℤ) ((1 : Nat) : ℤ)
            (filter_dates wCfg.time_difference (pySorted [0])))).map (fun r =>
          (sliceLast r.default_tif wCfg.bands.length).data.map
            (fun v => v * normFactor r.userdata_json))).flatten).map round4⟩) := by
  have h := c5_normalization wCfg none wBBox ("2020-01-01", "2020-01-02") [0] wClient
    1 1 1 2 (by decide) (by decide) rfl (by decide) (by decide) rfl (by decide)
    (by decide) ("DATA", "BANDS") rfl
  exact ⟨h.1, h.2.2.1, h.2.1⟩

theorem c8_error_no_mutation_witness :
    (execute wCfg none wBBox ("2020-01-01", "2020-01-02") [] wClient).2 =
      some (.emptyResult ("No available images for requested time range: " ++
        fmtInterval ("2020-01-01", "2020-01-02"))) ∧
    (execute wCfg none wBBox ("2020-01-01", "2020-01-02") [] wClient).1 =
      EOPatch.empty := by
  have h2 : (execute wCfg none wBBox ("2020-01-01", "2020-01-02") [] wClient).2 =
      some (.emptyResult ("No available images for requested time range: " ++
        fmtInterval ("2020-01-01", "2020-01-02"))) := rfl
  refine ⟨h2, ?_⟩
  exact c8_error_no_mutation wCfg none wBBox ("2020-01-01", "2020-01-02") [] wClient
    _ h2 (by decide) (by decide)

/-- Claim C9, as stated, is false for the elevation variant: a successful
DEM execution records no provenance metadata at all (here not even a
service-type entry), while the claim requires every successful execution,
including the DEM variant, to record it. -/
theorem c9_dem_no_meta_counterexample :
    (executeDEM wDEMCfg none wBBox wDEMClient).2 = none ∧
    getMeta (executeDEM wDEMCfg none wBBox wDEMClient).1 "service_type" = none :=
  ⟨rfl, rfl⟩

theorem c9_amended_provenance_witness :
    ((execute wCfg none wBBox ("2020-01-01", "2020-01-02") [0] wClient).2 = none ∧
      getMeta (execute wCfg none wBBox ("2020-01-01", "2020-01-02") [0] wClient).1
        "service_type" = some (.str "processing")) ∧
    (executeDEM wDEMCfg none wBBox wDEMClient).1.meta_info = [] := by
  have h := c9_amended_provenance wCfg none wBBox ("2020-01-01", "2020-01-02") [0]
    wClient wDEMCfg none wBBox wDEMClient
  have hsucc : (execute wCfg none wBBox ("2020-01-01", "2020-01-02") [0] wClient).2 =
      none := rfl
  exact ⟨⟨hsucc, (h.1 hsucc).1⟩, h.2⟩

theorem c10_size_verbatim_witness :
    resolve_size wCfgBoth.size wCfgBoth.resolution wBadBBox = .ok (1, 1) ∧
    (execute wCfgBoth none wBadBBox ("2020-01-01", "2020-01-02") [0] wClient).2 ≠
      some (.unsupportedCRS "Only UTM crs is supported.") := by
  have h := c10_size_verbatim wCfgBoth (1, 1) rfl none wBadBBox
    ("2020-01-01", "2020-01-02") [0] wClient
  exact ⟨h.1, h.2.1 "Only UTM crs is supported."⟩

/-- Claim C7: for every ordered band list B, the generated script splits
into fixed literal chunks around exactly three computed values: the JSON
band-name list, the declared output band count, which is the textual
numeral of the length of B, and the per-pixel return expression, which
indexes the input sample by the names of B in exactly the order of B
(`samplesStr`); the generator is a plain function of its input, so purity
and determinism hold by construction. -/
theorem c7_evalscript_structure (B : List String) :
    generate_evalscript B =
      evalscriptChunk0 ++ (jsonDumpsList B ++ (evalscriptChunk1 ++
        (toString B.length ++ (evalscriptChunk2 ++ (samplesStr B ++ evalscriptChunk3))))) ∧
    samplesStr B = "[" ++ (String.intercalate ", "
      (B.map (fun band => "sample." ++ band)) ++ "]") :=
  ⟨rfl, rfl⟩
